import Mathlib

set_option maxRecDepth 8192

/-
Verification of the Payroll-Calculator engine (src/script.js) against its
natural-language specification.

Modelling conventions:
* JavaScript numbers are modelled as exact rationals; the arithmetic of the
  engine is thereby interpreted in real-number (exact) semantics.
* DOM input fields are modelled as the raw strings they hold; the engine
  reads them through parseNumber exactly as getInputNumber does.
* Stateful browser facilities (localStorage, cookies) are modelled as
  explicit values and lists of performed write effects.
-/

/-! ## Number parsing (script.js parseNumber, lines 112-117) -/

/-- Characters surviving the cleaning step of parseNumber: the source removes
commas and every character outside the class of digits, dots and minus signs. -/
def jsKeep (c : Char) : Bool := c.isDigit || c == '.' || c == '-'

/-- Cleaning step of parseNumber: the two regex replaces jointly keep exactly
digits, dots and minus signs. -/
def cleanChars (s : String) : List Char := s.data.filter jsKeep

/-- Numeric value of a digit character. -/
def digitVal (c : Char) : ℕ := c.toNat - 48

/-- Value of a big-endian digit string. -/
def digitsToNat (ds : List Char) : ℕ := ds.foldl (fun a c => 10 * a + digitVal c) 0

/-- Value of integer digits and fractional digits of a decimal numeral. -/
def floatVal (ds fs : List Char) : ℚ :=
  (digitsToNat ds : ℚ) + (digitsToNat fs : ℚ) / (10 : ℚ) ^ fs.length

/-- Unsigned part of JavaScript parseFloat on a cleaned character list: a
maximal run of digits, optionally a dot followed by a maximal run of digits;
none when neither integer nor fractional digits are present. -/
def floatBody (body : List Char) : Option ℚ :=
  let ds := body.takeWhile Char.isDigit
  let rest := body.dropWhile Char.isDigit
  let fs : List Char :=
    if rest.head? == some '.' then rest.tail.takeWhile Char.isDigit else []
  if ds.isEmpty && fs.isEmpty then none
  else some (floatVal ds fs)

/-- JavaScript parseFloat on a cleaned character list: an optional leading
minus sign, then the unsigned part. Exponents cannot occur because the
letter e never survives cleaning. -/
def parseFloatHead (cs : List Char) : Option ℚ :=
  if cs.head? == some '-' then (floatBody cs.tail).map (fun v => -v)
  else floatBody cs

/-- parseNumber from script.js: clean the string, run parseFloat, and return 0
when the result is not a finite number. -/
def parseNumber (s : String) : ℚ := (parseFloatHead (cleanChars s)).getD 0

/-! ## Federal tax tables and bracket walk (script.js lines 70-96, 153-170) -/

/-- Filing statuses selectable in the UI; federalBrackets has exactly these keys. -/
inductive FilingStatus
  | single
  | married
  | head
deriving DecidableEq

/-- Shape of one entry of the federalBrackets table. -/
structure BracketTable where
  thresholds : List ℚ
  rates : List ℚ
deriving DecidableEq

/-- Federal tax brackets (2025) for the three filing statuses, from script.js. -/
def federalBrackets : FilingStatus → BracketTable
  | .single => ⟨[11925, 48475, 103350, 197300, 250525, 626350],
                [0.10, 0.12, 0.22, 0.24, 0.32, 0.35, 0.37]⟩
  | .married => ⟨[23850, 96950, 206700, 394600, 501050, 751600],
                 [0.10, 0.12, 0.22, 0.24, 0.32, 0.35, 0.37]⟩
  | .head => ⟨[17000, 64850, 103350, 197300, 250500, 626350],
              [0.10, 0.12, 0.22, 0.24, 0.32, 0.35, 0.37]⟩

/-- Standard deductions for 2025, from script.js. -/
def standardDeduction : FilingStatus → ℚ
  | .single => 15000
  | .married => 30000
  | .head => 22500

/-- Social Security wage base, from script.js. -/
def SOCIAL_SECURITY_BASE : ℚ := 176100

/-- Social Security tax rate, from script.js. -/
def SOCIAL_SECURITY_RATE : ℚ := 0.062

/-- Medicare tax rate, from script.js. -/
def MEDICARE_RATE : ℚ := 0.0145

/-- Loop body of calculateFederalTax: the rates list drives the iteration;
when thresholds are exhausted the upper bound is infinity, so the comparison
taxableIncome > upper is false and the loop takes the break branch. -/
def bracketLoop (taxable : ℚ) : ℚ → List ℚ → List ℚ → ℚ
  | _, _, [] => 0
  | prev, [], r :: _ => (taxable - prev) * r
  | prev, u :: ths, r :: rs =>
    if u < taxable then (u - prev) * r + bracketLoop taxable u ths rs
    else (taxable - prev) * r

/-- calculateFederalTax from script.js lines 153-170. -/
def calculateFederalTax (taxableIncome : ℚ) (status : FilingStatus) : ℚ :=
  if taxableIncome ≤ 0 then 0
  else bracketLoop taxableIncome 0 (federalBrackets status).thresholds
    (federalBrackets status).rates

/-! ## Income engine (script.js calculateIncome, lines 172-237) -/

/-- State top marginal income tax rates in percent, from script.js lines 16-67. -/
def stateTaxRates : List (String × ℚ) :=
  [("Alabama", 4.15), ("Alaska", 0.00), ("Arizona", 2.50), ("Arkansas", 3.90),
   ("California", 14.40), ("Colorado", 4.40), ("Connecticut", 6.99), ("Delaware", 7.85),
   ("Florida", 0.00), ("Georgia", 5.39), ("Hawaii", 11.00), ("Idaho", 5.70),
   ("Illinois", 4.95), ("Indiana", 5.02), ("Iowa", 3.80), ("Kansas", 5.58),
   ("Kentucky", 6.20), ("Louisiana", 3.00), ("Maine", 7.15), ("Maryland", 8.95),
   ("Massachusetts", 9.00), ("Michigan", 6.65), ("Minnesota", 9.85), ("Mississippi", 4.40),
   ("Missouri", 5.70), ("Montana", 5.90), ("Nebraska", 5.20), ("Nevada", 0.00),
   ("New Hampshire", 0.00), ("New Jersey", 11.75), ("New Mexico", 5.90), ("New York", 14.78),
   ("North Carolina", 4.25), ("North Dakota", 2.50), ("Ohio", 6.00), ("Oklahoma", 4.75),
   ("Oregon", 14.69), ("Pennsylvania", 6.86), ("Rhode Island", 5.99), ("South Carolina", 6.20),
   ("South Dakota", 0.00), ("Tennessee", 0.00), ("Texas", 0.00), ("Utah", 4.55),
   ("Vermont", 8.75), ("Virginia", 5.75), ("Washington", 0.00), ("West Virginia", 4.82),
   ("Wisconsin", 7.65), ("Wyoming", 0.00)]

/-- Raw values of the income-related form fields as calculateIncome reads them.
Each numeric field holds the raw string of the input element and is read
through parseNumber, exactly as getInputNumber does. -/
structure IncomeInput where
  salaryChecked : Bool
  annualSalary : String
  hourlyWage : String
  hoursPerWeek : String
  overtimeHours : String
  overtimeMultiplier : String
  stateSelect : String
  filingStatus : FilingStatus
deriving DecidableEq

/-- The overtime multiplier actually used by calculateIncome, line 186:
getInputNumber of the field, replaced by 1.5 when it is 0 (which is also the
result of parsing an absent, empty or non-numeric field). -/
def overtimeMultiplierUsed (i : IncomeInput) : ℚ :=
  if parseNumber i.overtimeMultiplier = 0 then 1.5 else parseNumber i.overtimeMultiplier

/-- The annualSalary local of calculateIncome, lines 174-191: the parsed salary
in salary mode; in hourly mode wage times clamped base hours plus wage times
multiplier times clamped overtime hours, each annualized by 52 weeks. -/
def annualGross (i : IncomeInput) : ℚ :=
  if i.salaryChecked then parseNumber i.annualSalary
  else
    parseNumber i.hourlyWage
        * (if 0 < parseNumber i.hoursPerWeek then parseNumber i.hoursPerWeek else 0) * 52
      + parseNumber i.hourlyWage * overtimeMultiplierUsed i
        * (if 0 < parseNumber i.overtimeHours then parseNumber i.overtimeHours else 0) * 52

/-- The totalHours local of calculateIncome, lines 175-189. -/
def totalAnnualHours (i : IncomeInput) : ℚ :=
  if i.salaryChecked then 40 * 52
  else
    ((if 0 < parseNumber i.hoursPerWeek then parseNumber i.hoursPerWeek else 0)
      + (if 0 < parseNumber i.overtimeHours then parseNumber i.overtimeHours else 0)
        * overtimeMultiplierUsed i) * 52

/-- The taxes object returned by calculateIncome, lines 228-234. -/
structure Taxes where
  federalTax : ℚ
  stateTax : ℚ
  socialSecurityTax : ℚ
  medicareTax : ℚ
  totalTax : ℚ
deriving DecidableEq

/-- The object returned by calculateIncome, lines 217-236. -/
structure IncomeResult where
  grossAnnual : ℚ
  grossMonthly : ℚ
  grossBiWeekly : ℚ
  grossWeekly : ℚ
  grossHourly : ℚ
  netAnnual : ℚ
  netMonthly : ℚ
  netBiWeekly : ℚ
  netWeekly : ℚ
  netHourly : ℚ
  taxes : Taxes
  effectiveTaxRate : ℚ
deriving DecidableEq

/-- calculateIncome from script.js lines 172-237. -/
def calculateIncome (i : IncomeInput) : IncomeResult :=
  let annualSalary := annualGross i
  let totalHours := totalAnnualHours i
  let stdDed := standardDeduction i.filingStatus
  let taxableIncome := max 0 (annualSalary - stdDed)
  let federalTax := calculateFederalTax taxableIncome i.filingStatus
  let socialSecurityTax := min annualSalary SOCIAL_SECURITY_BASE * SOCIAL_SECURITY_RATE
  let medicareTax := annualSalary * MEDICARE_RATE
  let stateRate := (stateTaxRates.lookup i.stateSelect).getD 0
  let stateTax := annualSalary * (stateRate / 100)
  let totalTax := federalTax + socialSecurityTax + medicareTax + stateTax
  let netAnnual := if annualSalary - totalTax < 0 then 0 else annualSalary - totalTax
  { grossAnnual := annualSalary
    grossMonthly := annualSalary / 12
    grossBiWeekly := annualSalary / 26
    grossWeekly := annualSalary / 52
    grossHourly := if 0 < totalHours then annualSalary / totalHours else 0
    netAnnual := netAnnual
    netMonthly := netAnnual / 12
    netBiWeekly := netAnnual / 26
    netWeekly := netAnnual / 52
    netHourly := if 0 < totalHours then netAnnual / totalHours else 0
    taxes := { federalTax := federalTax, stateTax := stateTax,
               socialSecurityTax := socialSecurityTax, medicareTax := medicareTax,
               totalTax := totalTax }
    effectiveTaxRate := if 0 < annualSalary then totalTax / annualSalary else 0 }

/-! ## Expense engine (script.js sumCustomItems and calculateExpenses, lines 239-295) -/

/-- Raw values of the expense-related form fields plus the current value
strings of the custom-item rows of each container. -/
structure ExpenseInput where
  housingAmount : String
  housingType : String
  propertyTax : String
  utilitiesBase : String
  vehicleChecked : Bool
  vehiclePayment : String
  fuelCosts : String
  autoInsuranceAmount : String
  autoInsurancePeriod : String
  publicTransportChecked : Bool
  rideShareChecked : Bool
  miscTravelChecked : Bool
  foodExpenses : String
  housingExtras : List String
  utilitiesExtras : List String
  vehicleExtras : List String
  publicTransportExtras : List String
  rideShareExtras : List String
  miscTravelExtras : List String
  additionalExpenses : List String
deriving DecidableEq

/-- sumCustomItems from script.js lines 239-250: each row's value input parses
through parseNumber, which never yields NaN, so the isNaN guard never skips. -/
def sumCustomItems (vals : List String) : ℚ := (vals.map parseNumber).sum

/-- The object returned by calculateExpenses, lines 283-294. -/
structure ExpenseResult where
  housingTotal : ℚ
  utilitiesTotal : ℚ
  vehicleTotal : ℚ
  publicTotal : ℚ
  rideShareTotal : ℚ
  miscTravelTotal : ℚ
  travelTotal : ℚ
  foodTotal : ℚ
  additionalTotal : ℚ
  total : ℚ
deriving DecidableEq

/-- calculateExpenses from script.js lines 252-295. -/
def calculateExpenses (e : ExpenseInput) : ExpenseResult :=
  let housingAmount := parseNumber e.housingAmount
  let propertyTax := if e.housingType = "mortgage" then parseNumber e.propertyTax else 0
  let housingTotal := housingAmount + propertyTax + sumCustomItems e.housingExtras
  let utilitiesTotal := parseNumber e.utilitiesBase + sumCustomItems e.utilitiesExtras
  let vehicleTotal :=
    if e.vehicleChecked then
      let period := if parseNumber e.autoInsurancePeriod = 0 then 1
                    else parseNumber e.autoInsurancePeriod
      let insuranceMonthly := if 0 < period then parseNumber e.autoInsuranceAmount / period else 0
      parseNumber e.vehiclePayment + parseNumber e.fuelCosts + insuranceMonthly
        + sumCustomItems e.vehicleExtras
    else 0
  let publicTotal := if e.publicTransportChecked then sumCustomItems e.publicTransportExtras else 0
  let rideShareTotal := if e.rideShareChecked then sumCustomItems e.rideShareExtras else 0
  let miscTravelTotal := if e.miscTravelChecked then sumCustomItems e.miscTravelExtras else 0
  let travelTotal := vehicleTotal + publicTotal + rideShareTotal + miscTravelTotal
  let foodTotal := parseNumber e.foodExpenses
  let additionalTotal := sumCustomItems e.additionalExpenses
  { housingTotal := housingTotal
    utilitiesTotal := utilitiesTotal
    vehicleTotal := vehicleTotal
    publicTotal := publicTotal
    rideShareTotal := rideShareTotal
    miscTravelTotal := miscTravelTotal
    travelTotal := travelTotal
    foodTotal := foodTotal
    additionalTotal := additionalTotal
    total := housingTotal + utilitiesTotal + travelTotal + foodTotal + additionalTotal }

/-- Salary-mode input with an annual salary above the wage base. -/
def wageBaseInput : IncomeInput :=
  { salaryChecked := true, annualSalary := "200000", hourlyWage := "", hoursPerWeek := "",
    overtimeHours := "", overtimeMultiplier := "", stateSelect := "Texas",
    filingStatus := .single }

/-- Hourly-mode input: 20 an hour, 40 regular hours, 5 overtime hours, empty
multiplier field. -/
def hourlyInput : IncomeInput :=
  { salaryChecked := false, annualSalary := "", hourlyWage := "20", hoursPerWeek := "40",
    overtimeHours := "5", overtimeMultiplier := "", stateSelect := "Texas",
    filingStatus := .single }

/-- Salary-mode input with an empty salary field, parsing to gross 0. -/
def zeroGrossInput : IncomeInput :=
  { salaryChecked := true, annualSalary := "", hourlyWage := "", hoursPerWeek := "",
    overtimeHours := "", overtimeMultiplier := "", stateSelect := "Texas",
    filingStatus := .single }

/-- Hourly-mode input with a negative hours-per-week field. -/
def negHoursInput : IncomeInput :=
  { salaryChecked := false, annualSalary := "", hourlyWage := "10", hoursPerWeek := "-5",
    overtimeHours := "", overtimeMultiplier := "", stateSelect := "Texas",
    filingStatus := .single }

/-- Expense input used by the claim C10 witness: mortgage housing with a
negative custom housing item. -/
def wExpenseInput : ExpenseInput :=
  { housingAmount := "1200", housingType := "mortgage", propertyTax := "300",
    utilitiesBase := "150", vehicleChecked := false, vehiclePayment := "",
    fuelCosts := "", autoInsuranceAmount := "", autoInsurancePeriod := "",
    publicTransportChecked := false, rideShareChecked := false,
    miscTravelChecked := false, foodExpenses := "400",
    housingExtras := ["-50"], utilitiesExtras := [], vehicleExtras := [],
    publicTransportExtras := [], rideShareExtras := [], miscTravelExtras := [],
    additionalExpenses := [] }

/-- Expense input with every travel checkbox on and a negative value in every
category, used to exercise the pass-through clauses of claim C10. -/
def negExpenseInput : ExpenseInput :=
  { housingAmount := "-100", housingType := "rent", propertyTax := "300",
    utilitiesBase := "-20", vehicleChecked := true, vehiclePayment := "-80",
    fuelCosts := "-10", autoInsuranceAmount := "-60", autoInsurancePeriod := "2",
    publicTransportChecked := true, rideShareChecked := true,
    miscTravelChecked := true, foodExpenses := "-40",
    housingExtras := [], utilitiesExtras := ["-5"], vehicleExtras := ["-15"],
    publicTransportExtras := ["-25"], rideShareExtras := ["-35"],
    miscTravelExtras := ["-45"], additionalExpenses := ["-55"] }

/-- Breakpoints of the federal tax function: 0 followed by the thresholds. -/
def breakpoints (s : FilingStatus) : List ℚ := 0 :: (federalBrackets s).thresholds

/-! ## The parseNumber contract (claim C6) -/

/-- Recognizer for the unsigned decimal numerals accepted by parseFloat: a
non-empty run of digits optionally followed by a dot and digits, or a dot
followed by a non-empty run of digits. -/
def bodyLit (body : List Char) : Bool :=
  let ds := body.takeWhile Char.isDigit
  let rest := body.dropWhile Char.isDigit
  if rest.isEmpty then !ds.isEmpty
  else if rest.head? == some '.' then
    rest.tail.all Char.isDigit && (!ds.isEmpty || !rest.tail.isEmpty)
  else false

/-- Recognizer for signed decimal numerals: an optional leading minus sign
followed by an unsigned decimal numeral. -/
def isDecimalLit (cs : List Char) : Bool :=
  bodyLit (if cs.head? == some '-' then cs.tail else cs)

/-- The longest prefix of a character list that is a signed decimal numeral. -/
def longestNumericTake (cs : List Char) : Option (List Char) :=
  ((List.range (cs.length + 1)).reverse.find? (fun n => isDecimalLit (cs.take n))).map
    (fun n => cs.take n)

/-- Value of the longest decimal-numeral prefix of a cleaned character list,
0 when no prefix is a decimal numeral. -/
def specFloat (cs : List Char) : ℚ :=
  match longestNumericTake cs with
  | some p => (parseFloatHead p).getD 0
  | none => 0

/-- Modelled from the claim wording of parseAmount: strip thousands-separator
characters and any character that is not a digit, a decimal point, or a
leading minus sign, parse the remainder as a decimal number, and return 0
when the result is not a number. -/
def specParseAmount (s : String) : ℚ :=
  let kept : List Char :=
    match s.data with
    | '-' :: t => '-' :: t.filter (fun c => c.isDigit || c == '.')
    | l => l.filter (fun c => c.isDigit || c == '.')
  if isDecimalLit kept then (parseFloatHead kept).getD 0 else 0

/-- The amended contract of parseAmount: strip any character that is not a
digit, decimal point or minus sign (minus signs are kept regardless of
position), then return the value of the longest prefix of the remainder that
forms a signed decimal numeral, and 0 when there is no such prefix. -/
def specParseAmountAmended (s : String) : ℚ := specFloat (cleanChars s)

/-! ## Number formatting (script.js formatWithCommas and formatInputValue,
lines 125-151); used by the persistence round trip, which reformats every
restored numeric field. The en-US locale grouping with two fraction digits is
modelled as round-half-away-from-zero to cents, digits grouped by commas. -/

/-- Rounding half away from zero, the default rounding of toLocaleString. -/
def roundHalfExpand (x : ℚ) : ℤ :=
  if 0 ≤ x then ⌊x + 1 / 2⌋ else -⌊-x + 1 / 2⌋

/-- Digit character of a digit value. -/
def digitToChar (d : ℕ) : Char := Char.ofNat (48 + d)

/-- Little-endian digits of a natural number, with explicit fuel. -/
def natDigitsRev : ℕ → ℕ → List ℕ
  | 0, _ => []
  | _ + 1, 0 => []
  | f + 1, n + 1 => ((n + 1) % 10) :: natDigitsRev f ((n + 1) / 10)

/-- Big-endian digit characters of a natural number; 0 renders as 0. -/
def natToDigitChars (n : ℕ) : List Char :=
  if n = 0 then ['0'] else ((natDigitsRev n n).map digitToChar).reverse

/-- Split a list into groups of three. -/
def chunk3 {α : Type} : List α → List (List α)
  | [] => []
  | [a] => [[a]]
  | [a, b] => [[a, b]]
  | a :: b :: c :: rest => [a, b, c] :: chunk3 rest

/-- Join character groups with comma separators. -/
def commaJoin : List (List Char) → List Char
  | [] => []
  | [l] => l
  | l :: rest => l ++ ',' :: commaJoin rest

/-- Insert en-US thousands separators into a big-endian digit string. -/
def commaGroup (ds : List Char) : List Char :=
  commaJoin (((chunk3 ds.reverse).map List.reverse).reverse)

/-- The two fraction digit characters of a cent remainder. -/
def twoDigitChars (f : ℕ) : List Char := [digitToChar (f / 10 % 10), digitToChar (f % 10)]

/-- formatWithCommas from script.js at two fraction digits: the en-US locale
rendering with thousands separators and exactly two decimals. -/
def formatWithCommas (q : ℚ) : String :=
  let r : ℤ := roundHalfExpand (100 * q)
  let a : ℕ := r.natAbs
  String.mk ((if r < 0 then ['-'] else [])
    ++ commaGroup (natToDigitChars (a / 100)) ++ '.' :: twoDigitChars (a % 100))

/-- The whitespace characters recognized by a JavaScript trim. -/
def jsSpaceB (c : Char) : Bool :=
  c == ' ' || c == '\t' || c == '\n' || c == '\r' || c == '\x0b' || c == '\x0c'

/-- Whether a string trims to the empty string. -/
def jsTrimEmpty (s : String) : Bool := s.data.all jsSpaceB

/-- formatInputValue from script.js lines 142-147: an input whose parsed value
is 0 and whose text trims to empty is cleared; any other input is replaced by
the two-decimal comma-grouped rendering of its parsed value. -/
def formatInputValue (v : String) : String :=
  if parseNumber v = 0 ∧ jsTrimEmpty v = true then ""
  else formatWithCommas (parseNumber v)

/-! ## Form state and the persistence document (script.js lines 445-549) -/

/-- A persisted input entry: a boolean for checkbox/radio elements, the raw
text value for every other input or select element. -/
inductive InputVal
  | b (v : Bool)
  | s (v : String)
deriving DecidableEq

/-- JavaScript truthiness of a persisted input entry, as used by the
double-negation applied when restoring a checkable element. -/
def jsTruthy : InputVal → Bool
  | .b v => v
  | .s v => v != ""

/-- JavaScript string coercion of a persisted input entry, as used when a
value is assigned back to a text element. -/
def jsToString : InputVal → String
  | .b true => "true"
  | .b false => "false"
  | .s v => v

/-- A form element with an id, as saveState and loadState see it: checkbox
and radio elements persist their checked flag, other elements their value;
elements carrying a data-format attribute are reformatted by
formatAllInputs. -/
structure FormField where
  id : String
  isCheckable : Bool
  hasFormat : Bool
  value : String
  checked : Bool
deriving DecidableEq

/-- A custom item row: the text of its label input and of its value input. -/
structure CustomItem where
  label : String
  value : String
deriving DecidableEq

/-- The custom item rows of the seven CUSTOM_CONTAINERS. -/
structure CustomLists where
  housingExtras : List CustomItem
  utilitiesExtras : List CustomItem
  vehicleExtras : List CustomItem
  publicTransportExtras : List CustomItem
  rideShareExtras : List CustomItem
  miscTravelExtras : List CustomItem
  additionalExpenses : List CustomItem
deriving DecidableEq

/-- Apply a transformation to every container's custom rows. -/
def mapCustomLists (g : List CustomItem → List CustomItem) (c : CustomLists) : CustomLists :=
  ⟨g c.housingExtras, g c.utilitiesExtras, g c.vehicleExtras, g c.publicTransportExtras,
   g c.rideShareExtras, g c.miscTravelExtras, g c.additionalExpenses⟩

/-- The whole form as the persistence layer sees it: the theme flag on the
body, the identified input and select elements, and the custom item rows. -/
structure FormState where
  themeLight : Bool
  fields : List FormField
  custom : CustomLists
deriving DecidableEq

/-- The persisted document of saveState: theme, inputs object (in insertion
order) and custom rows per container. -/
structure PersistedDoc where
  theme : String
  inputs : List (String × InputVal)
  custom : CustomLists
deriving DecidableEq

/-- JavaScript object insertion: an existing key keeps its position and gets
the new value, a new key is appended. -/
def objInsert (l : List (String × InputVal)) (k : String) (v : InputVal) :
    List (String × InputVal) :=
  if (l.map Prod.fst).contains k then l.map (fun p => if p.1 = k then (k, v) else p)
  else l ++ [(k, v)]

/-- readCustomRows from script.js lines 445-455: the label falls back to the
empty string and the value to the string 0. -/
def readCustomRows (rows : List CustomItem) : List CustomItem :=
  rows.map (fun r => ⟨r.label, if r.value = "" then "0" else r.value⟩)

/-- The storage key of the persisted document. -/
def STORAGE_KEY : String := "payrollCalcState"

/-- The cookie name of the persisted fallback copy. -/
def COOKIE_KEY : String := "payrollCalcCookie"

/-- The persisted entry of a form element: the checked flag for a checkable
element, the value text otherwise. -/
def encInput (f : FormField) : InputVal :=
  if f.isCheckable then .b f.checked else .s f.value

/-- The document built by saveState, lines 488-505: theme from the body
class, one inputs entry per element with an id (checked flag for checkable
elements, value text otherwise, later elements overwriting earlier ones with
the same id), and the custom rows read from each container. -/
def saveStateDoc (st : FormState) : PersistedDoc :=
  { theme := if st.themeLight then "light" else "dark"
    inputs := st.fields.foldl (fun acc f => objInsert acc f.id (encInput f)) []
    custom := mapCustomLists readCustomRows st.custom }

/-- addCustomItem from script.js lines 402-443 as it acts on a restored item:
the label falls back to the empty string, the value to the string 0, and the
value input is immediately reformatted by formatInputValue. -/
def addCustomItemRow (it : CustomItem) : CustomItem :=
  ⟨it.label, formatInputValue (if it.value = "" then "0" else it.value)⟩

/-- Writing one persisted inputs entry back into a field, loadState lines
533-541: a checkable element receives the truthiness of the stored value,
any other element its string coercion; fields without a stored entry are
left alone. -/
def applyInputs (inputs : List (String × InputVal)) (f : FormField) : FormField :=
  match inputs.lookup f.id with
  | none => f
  | some v => if f.isCheckable then { f with checked := jsTruthy v }
              else { f with value := jsToString v }

/-- formatAllInputs from script.js lines 149-151 on one field. -/
def formatAllField (f : FormField) : FormField :=
  if f.hasFormat then { f with value := formatInputValue f.value } else f

/-- Applying a persisted document to the form, loadState lines 533-548:
write the inputs back, rebuild every custom container from the document
(addCustomItem formats each value once), apply the theme (defaulting to
dark), then formatAllInputs reformats every data-format input, including the
freshly rebuilt custom value inputs. -/
def restoreDoc (doc : PersistedDoc) (st : FormState) : FormState :=
  { themeLight := (if doc.theme = "" then "dark" else doc.theme) == "light"
    fields := (st.fields.map (applyInputs doc.inputs)).map formatAllField
    custom := mapCustomLists
      (fun items => (items.map addCustomItemRow).map
        (fun it => ⟨it.label, formatInputValue it.value⟩)) doc.custom }

/-- The serialize-then-restore round trip of the claim. -/
def roundTrip (st : FormState) : FormState := restoreDoc (saveStateDoc st) st

/-- Canonical form of one custom item after a round trip. -/
def canonItem (it : CustomItem) : CustomItem :=
  ⟨it.label, formatInputValue (if it.value = "" then "0" else it.value)⟩

/-- A reachable form state: the annualSalary field holds the raw typed text
1000, as persisted by the debounced save before any blur reformats it. -/
def exState : FormState :=
  { themeLight := false
    fields := [⟨"annualSalary", false, true, "1000", false⟩]
    custom := ⟨[], [], [], [], [], [], []⟩ }

/-! ## JSON serialization of the persisted document (saveState line 505) -/

/-- Hexadecimal digit character, lowercase. -/
def hexDigit (d : ℕ) : Char := if d < 10 then digitToChar d else Char.ofNat (87 + d)

/-- JSON string escaping of one character. -/
def escChar (c : Char) : List Char :=
  if c = '"' then ['\\', '"']
  else if c = '\\' then ['\\', '\\']
  else if c.toNat = 8 then ['\\', 'b']
  else if c.toNat = 9 then ['\\', 't']
  else if c.toNat = 10 then ['\\', 'n']
  else if c.toNat = 12 then ['\\', 'f']
  else if c.toNat = 13 then ['\\', 'r']
  else if c.toNat < 32 then
    ['\\', 'u', '0', '0', hexDigit (c.toNat / 16), hexDigit (c.toNat % 16)]
  else [c]

/-- A JSON string literal. -/
def jsonStr (s : String) : String :=
  "\"" ++ String.mk ((s.data.map escChar).flatten) ++ "\""

/-- Comma-join of rendered pieces. -/
def joinComma : List String → String
  | [] => ""
  | [x] => x
  | x :: rest => x ++ "," ++ joinComma rest

/-- Rendering of a persisted inputs entry. -/
def stringifyInputVal : InputVal → String
  | .b true => "true"
  | .b false => "false"
  | .s v => jsonStr v

/-- Rendering of the inputs object, keys in insertion order. -/
def stringifyInputs (l : List (String × InputVal)) : String :=
  "\x7b" ++ joinComma (l.map (fun p => jsonStr p.1 ++ ":" ++ stringifyInputVal p.2)) ++ "\x7d"

/-- Rendering of one custom item, key order label then value. -/
def stringifyItem (it : CustomItem) : String :=
  "\x7b\"label\":" ++ jsonStr it.label ++ ",\"value\":" ++ jsonStr it.value ++ "\x7d"

/-- Rendering of one container's custom rows. -/
def stringifyArr (items : List CustomItem) : String :=
  "[" ++ joinComma (items.map stringifyItem) ++ "]"

/-- Rendering of the custom map, keys in CUSTOM_CONTAINERS order. -/
def stringifyCustom (c : CustomLists) : String :=
  "\x7b\"housingExtras\":" ++ stringifyArr c.housingExtras
    ++ ",\"utilitiesExtras\":" ++ stringifyArr c.utilitiesExtras
    ++ ",\"vehicleExtras\":" ++ stringifyArr c.vehicleExtras
    ++ ",\"publicTransportExtras\":" ++ stringifyArr c.publicTransportExtras
    ++ ",\"rideShareExtras\":" ++ stringifyArr c.rideShareExtras
    ++ ",\"miscTravelExtras\":" ++ stringifyArr c.miscTravelExtras
    ++ ",\"additionalExpenses\":" ++ stringifyArr c.additionalExpenses
    ++ "\x7d"

/-- JSON.stringify of the persisted document, keys in insertion order. -/
def jsonStringify (d : PersistedDoc) : String :=
  "\x7b\"theme\":" ++ jsonStr d.theme ++ ",\"inputs\":" ++ stringifyInputs d.inputs
    ++ ",\"custom\":" ++ stringifyCustom d.custom ++ "\x7d"

/-! ## Base64 (btoa and atob) -/

/-- The base64 alphabet character of a six-bit value. -/
def b64Char (n : ℕ) : Char :=
  "ABCDEFGHIJKLMNOPQRSTUVWXYZabcdefghijklmnopqrstuvwxyz0123456789+/".data.getD n 'A'

/-- Encoding of one group of at most three bytes into four base64 characters. -/
def btoaChunk : List ℕ → List Char
  | [x] => [b64Char (x / 4), b64Char (x % 4 * 16), '=', '=']
  | [x, y] => [b64Char (x / 4), b64Char (x % 4 * 16 + y / 16), b64Char (y % 16 * 4), '=']
  | [x, y, z] => [b64Char (x / 4), b64Char (x % 4 * 16 + y / 16),
      b64Char (y % 16 * 4 + z / 64), b64Char (z % 64)]
  | _ => []

/-- window.btoa: base64-encodes a string of Latin-1 characters; none models
the InvalidCharacterError thrown on any code unit above U+00FF. -/
def btoa (s : String) : Option String :=
  if s.data.all (fun c => decide (c.toNat < 256)) then
    some (String.mk (((chunk3 (s.data.map Char.toNat)).map btoaChunk).flatten))
  else none

/-- The six-bit value of a base64 alphabet character. -/
def b64Val (c : Char) : Option ℕ :=
  if 'A' ≤ c ∧ c ≤ 'Z' then some (c.toNat - 65)
  else if 'a' ≤ c ∧ c ≤ 'z' then some (c.toNat - 71)
  else if c.isDigit then some (c.toNat + 4)
  else if c = '+' then some 62
  else if c = '/' then some 63
  else none

/-- ASCII whitespace stripped by the forgiving base64 decoder. -/
def asciiWs (c : Char) : Bool :=
  c == ' ' || c == '\t' || c == '\n' || c == '\x0c' || c == '\r'

/-- Split a list into groups of four. -/
def chunk4 {α : Type} : List α → List (List α)
  | [] => []
  | [a] => [[a]]
  | [a, b] => [[a, b]]
  | [a, b, c] => [[a, b, c]]
  | a :: b :: c :: d :: rest => [a, b, c, d] :: chunk4 rest

/-- Decoding of one group of base64 values into bytes. -/
def atobChunk : List ℕ → List ℕ
  | [a, b] => [a * 4 + b / 16]
  | [a, b, c] => [a * 4 + b / 16, b % 16 * 16 + c / 4]
  | [a, b, c, d] => [a * 4 + b / 16, b % 16 * 16 + c / 4, c % 4 * 64 + d]
  | _ => []

/-- atob: the forgiving base64 decoder; none on bad length or characters
outside the alphabet. -/
def atob (s : String) : Option String :=
  let cs := s.data.filter (fun c => !asciiWs c)
  let cs2 :=
    if cs.length % 4 == 0 then
      match cs.reverse with
      | '=' :: '=' :: r => r.reverse
      | '=' :: r => r.reverse
      | _ => cs
    else cs
  if cs2.length % 4 == 1 then none
  else
    match cs2.mapM b64Val with
    | none => none
    | some vs => some (String.mk (((chunk4 vs).map atobChunk).flatten.map Char.ofNat))

/-! ## The writes of saveState (script.js lines 488-509, claim C8) -/

/-- A persistence write effect: a localStorage entry or a cookie with a
max-age in seconds. -/
inductive SaveEffect
  | store (key val : String)
  | cookie (key val : String) (maxAge : ℕ)
deriving DecidableEq

/-- The writes saveState completes. The localStorage setItem call can throw
(quota exceeded, private browsing); saveState has no exception handling, so
when it throws the function aborts and the cookie assignment on the next
line is never reached. When the store write succeeds, the cookie line runs:
btoa throws on a serialized document holding a character above U+00FF, and
that exception too is uncaught, so it aborts after the store write with
only the store effect committed. -/
def saveStateWrites (st : FormState) (storeThrows : Bool) : List SaveEffect :=
  if storeThrows then []
  else
    match btoa (jsonStringify (saveStateDoc st)) with
    | some enc => [.store STORAGE_KEY (jsonStringify (saveStateDoc st)),
                   .cookie COOKIE_KEY enc 34128000]
    | none => [.store STORAGE_KEY (jsonStringify (saveStateDoc st))]

/-- Modelled from the spec: save writes the document to the durable store and
separately writes the base64 copy to the cookie, and the failure of either
write does not prevent the other, so the cookie write happens regardless of
a store failure (and only its own encoding failure suppresses it). -/
def specSaveWrites (st : FormState) (storeThrows : Bool) : List SaveEffect :=
  (if storeThrows then [] else [.store STORAGE_KEY (jsonStringify (saveStateDoc st))])
    ++ (match btoa (jsonStringify (saveStateDoc st)) with
        | some enc => [.cookie COOKIE_KEY enc 34128000]
        | none => [])

/-- A form state whose serialized document contains a character above U+00FF
(a euro sign in the annualSalary field), on which window.btoa throws. -/
def exStateUni : FormState :=
  { themeLight := false
    fields := [⟨"annualSalary", false, true, "€", false⟩]
    custom := ⟨[], [], [], [], [], [], []⟩ }

/-! ## JSON.parse and loadState (script.js lines 511-549, claim C9) -/

/-- JSON values. -/
inductive Json
  | null
  | bool (b : Bool)
  | num (q : ℚ)
  | str (s : String)
  | arr (elems : List Json)
  | obj (members : List (String × Json))

/-- JSON whitespace. -/
def jsonWs (c : Char) : Bool := c == ' ' || c == '\t' || c == '\n' || c == '\r'

/-- Skip JSON whitespace. -/
def skipWs (cs : List Char) : List Char := cs.dropWhile jsonWs

/-- Hexadecimal digit value. -/
def hexVal (c : Char) : Option ℕ :=
  if c.isDigit then some (digitVal c)
  else if 'a' ≤ c ∧ c ≤ 'f' then some (c.toNat - 87)
  else if 'A' ≤ c ∧ c ≤ 'F' then some (c.toNat - 55)
  else none

/-- JSON string body parser: consumes up to the closing quote, handling the
escape sequences of the JSON grammar; none on control characters, invalid
escapes or a missing closing quote. -/
def parseJStr : ℕ → List Char → List Char → Option (String × List Char)
  | 0, _, _ => none
  | fuel + 1, acc, cs =>
    match cs with
    | [] => none
    | '"' :: r => some (String.mk acc.reverse, r)
    | '\\' :: e :: r =>
      if e = '"' then parseJStr fuel ('"' :: acc) r
      else if e = '\\' then parseJStr fuel ('\\' :: acc) r
      else if e = '/' then parseJStr fuel ('/' :: acc) r
      else if e = 'b' then parseJStr fuel (Char.ofNat 8 :: acc) r
      else if e = 'f' then parseJStr fuel (Char.ofNat 12 :: acc) r
      else if e = 'n' then parseJStr fuel ('\n' :: acc) r
      else if e = 'r' then parseJStr fuel ('\r' :: acc) r
      else if e = 't' then parseJStr fuel ('\t' :: acc) r
      else if e = 'u' then
        match r with
        | x1 :: x2 :: x3 :: x4 :: r2 =>
          match hexVal x1, hexVal x2, hexVal x3, hexVal x4 with
          | some h1, some h2, some h3, some h4 =>
            parseJStr fuel (Char.ofNat (h1 * 4096 + h2 * 256 + h3 * 16 + h4) :: acc) r2
          | _, _, _, _ => none
        | _ => none
      else none
    | c :: r => if c.toNat < 32 then none else parseJStr fuel (c :: acc) r

/-- JSON number parser: optional minus, an integer part without leading
zeros, optional fraction and exponent. -/
def parseJNum (cs : List Char) : Option (Json × List Char) :=
  let p : Bool × List Char :=
    match cs with
    | '-' :: t => (true, t)
    | _ => (false, cs)
  let ds := p.2.takeWhile Char.isDigit
  let r1 := p.2.dropWhile Char.isDigit
  if ds.isEmpty then none
  else if 1 < ds.length && ds.head? == some '0' then none
  else
    let fsOpt : Option (List Char × List Char) :=
      match r1 with
      | '.' :: r2 =>
        let fs := r2.takeWhile Char.isDigit
        if fs.isEmpty then none else some (fs, r2.dropWhile Char.isDigit)
      | _ => some ([], r1)
    match fsOpt with
    | none => none
    | some (fs, r2) =>
      let exOpt : Option (Bool × List Char × List Char) :=
        match r2 with
        | c :: r3 =>
          if c = 'e' ∨ c = 'E' then
            let q : Bool × List Char :=
              match r3 with
              | '+' :: r4 => (false, r4)
              | '-' :: r4 => (true, r4)
              | _ => (false, r3)
            let es := q.2.takeWhile Char.isDigit
            if es.isEmpty then none
            else some (q.1, es, q.2.dropWhile Char.isDigit)
          else some (false, [], r2)
        | [] => some (false, [], [])
      match exOpt with
      | none => none
      | some (eneg, es, r4) =>
        let mant : ℚ := (digitsToNat ds : ℚ) + (digitsToNat fs : ℚ) / (10 : ℚ) ^ fs.length
        let mant2 := if p.1 then -mant else mant
        let value := if eneg then mant2 / (10 : ℚ) ^ digitsToNat es
                     else mant2 * (10 : ℚ) ^ digitsToNat es
        some (.num value, r4)

/-- Selector for the mutually recursive parts of the JSON value parser. -/
inductive JTask
  | val
  | elems
  | members

/-- Output of the JSON value parser parts. -/
inductive JOut
  | v (j : Json)
  | es (l : List Json)
  | ms (l : List (String × Json))

/-- Recursive JSON parser: a value, the tail of a non-empty array, or the
tail of a non-empty object, with explicit fuel. -/
def parseJ : ℕ → JTask → List Char → Option (JOut × List Char)
  | 0, _, _ => none
  | fuel + 1, .val, cs =>
    match skipWs cs with
    | [] => none
    | c :: rest =>
      if c = 'n' then
        if ['u', 'l', 'l'].isPrefixOf rest then some (.v .null, rest.drop 3) else none
      else if c = 't' then
        if ['r', 'u', 'e'].isPrefixOf rest then some (.v (.bool true), rest.drop 3) else none
      else if c = 'f' then
        if ['a', 'l', 's', 'e'].isPrefixOf rest then some (.v (.bool false), rest.drop 4)
        else none
      else if c = '"' then
        match parseJStr (rest.length + 1) [] rest with
        | some (s, r2) => some (.v (.str s), r2)
        | none => none
      else if c = '[' then
        match skipWs rest with
        | ']' :: r2 => some (.v (.arr []), r2)
        | _ =>
          match parseJ fuel .elems rest with
          | some (.es l, r2) => some (.v (.arr l), r2)
          | _ => none
      else if c = Char.ofNat 123 then
        match skipWs rest with
        | c2 :: r2 =>
          if c2 = Char.ofNat 125 then some (.v (.obj []), r2)
          else
            match parseJ fuel .members rest with
            | some (.ms l, r3) => some (.v (.obj l), r3)
            | _ => none
        | [] => none
      else
        match parseJNum (c :: rest) with
        | some (j, r2) => some (.v j, r2)
        | none => none
  | fuel + 1, .elems, cs =>
    match parseJ fuel .val cs with
    | some (.v j, r1) =>
      (match skipWs r1 with
       | ',' :: r2 =>
         match parseJ fuel .elems r2 with
         | some (.es l, r3) => some (.es (j :: l), r3)
         | _ => none
       | ']' :: r2 => some (.es [j], r2)
       | _ => none)
    | _ => none
  | fuel + 1, .members, cs =>
    match skipWs cs with
    | '"' :: r1 =>
      (match parseJStr (r1.length + 1) [] r1 with
       | some (k, r2) =>
         (match skipWs r2 with
          | ':' :: r3 =>
            (match parseJ fuel .val r3 with
             | some (.v j, r4) =>
               (match skipWs r4 with
                | ',' :: r5 =>
                  (match parseJ fuel .members r5 with
                   | some (.ms l, r6) => some (.ms ((k, j) :: l), r6)
                   | _ => none)
                | c :: r5 =>
                  if c = Char.ofNat 125 then some (.ms [(k, j)], r5) else none
                | [] => none)
             | _ => none)
          | _ => none)
       | none => none)
    | _ => none

/-- JSON.parse: parse one value and require only whitespace after it. -/
def jsonParse (s : String) : Option Json :=
  match parseJ (2 * s.data.length + 2) .val s.data with
  | some (.v j, rest) => if (skipWs rest).isEmpty then some j else none
  | _ => none

/-- JavaScript truthiness of a parsed JSON value (`if (!stateData)`). -/
def jsonTruthy : Json → Bool
  | .null => false
  | .bool b => b
  | .num q => decide (q ≠ 0)
  | .str s => decide (s ≠ "")
  | .arr _ => true
  | .obj _ => true

/-- JSON.parse inside try/catch followed by the `!stateData` truthiness
check: none both on a parse error and on a falsy parsed value. -/
def truthyParse (s : String) : Option Json :=
  match jsonParse s with
  | some j => if jsonTruthy j then some j else none
  | none => none

/-- String.prototype.split on a separator, over character lists, with fuel. -/
def splitOnAux (sep : List Char) : ℕ → List Char → List Char → List (List Char)
  | 0, acc, _ => [acc.reverse]
  | fuel + 1, acc, cs =>
    if sep.isPrefixOf cs ∧ sep ≠ [] then
      acc.reverse :: splitOnAux sep fuel [] (cs.drop sep.length)
    else
      match cs with
      | [] => [acc.reverse]
      | c :: r => splitOnAux sep fuel (c :: acc) r

/-- s.split(sep) for a non-empty separator. -/
def splitOnList (sep cs : List Char) : List (List Char) :=
  splitOnAux sep (cs.length + 1) [] cs

/-- The cookie-row head the fallback searches for: `payrollCalcCookie=`. -/
def cookieHead : List Char := (COOKIE_KEY ++ "=").data

/-- The cookie fallback of loadState: split document.cookie on `; `, find
the row starting with the cookie key, base64-decode the part after the
first `=`, JSON.parse inside try/catch, then the truthiness check. -/
def cookieFallback (cookieStr : String) : Option Json :=
  match (splitOnList [';', ' '] cookieStr.data).find?
      (fun row => cookieHead.isPrefixOf row) with
  | none => none
  | some row =>
    match atob (String.mk ((splitOnList ['='] row).getD 1 [])) with
    | none => none
    | some decoded => truthyParse decoded

/-- loadState's data acquisition (script.js lines 511-531): the primary
localStorage read guarded by truthiness and try/JSON.parse, then the
cookie fallback, every exception caught; none means loadState returns
without touching the document (default state). -/
def loadStateData (stored : Option String) (cookieStr : String) : Option Json :=
  let primary : Option Json :=
    match stored with
    | some s => if s = "" then none else truthyParse s
    | none => none
  match primary with
  | some j => some j
  | none => cookieFallback cookieStr

/-- Claim C1: for the single filing status with thresholds
11925, 48475, 103350, 197300, 250525, 626350 and rates
0.10, 0.12, 0.22, 0.24, 0.32, 0.35, 0.37, the federal tax function returns
exactly 1192.50 at taxable income 11925 and exactly 5914.00 at taxable
income 50000. -/
theorem federalTax_single_values :
    (federalBrackets .single).thresholds = [11925, 48475, 103350, 197300, 250525, 626350]
    ∧ (federalBrackets .single).rates = [0.10, 0.12, 0.22, 0.24, 0.32, 0.35, 0.37]
    ∧ calculateFederalTax 11925 .single = 1192.50
    ∧ calculateFederalTax 50000 .single = 5914.00 := by
  refine ⟨rfl, rfl, ?_, ?_⟩ <;>
    norm_num [calculateFederalTax, bracketLoop, federalBrackets]

/-- The clamp hours > 0 ? hours : 0 used by calculateIncome is a max with 0. -/
theorem ite_pos_eq_max (x : ℚ) : (if 0 < x then x else 0) = max x 0 := by
  rcases le_or_lt x 0 with h | h
  · rw [if_neg (not_lt.2 h), max_eq_right h]
  · rw [if_pos h, max_eq_left (le_of_lt h)]

/-- Claim C3: for every income input, the Social Security tax component equals
min(annual gross, wage base) times the Social Security rate; for any gross at
or above the wage base 176100 it equals exactly 176100 times 0.062, that is
10918.20. -/
theorem socialSecurityTax_capped (i : IncomeInput) :
    (calculateIncome i).taxes.socialSecurityTax
      = min ((calculateIncome i).grossAnnual) SOCIAL_SECURITY_BASE * SOCIAL_SECURITY_RATE
    ∧ (SOCIAL_SECURITY_BASE ≤ (calculateIncome i).grossAnnual →
        (calculateIncome i).taxes.socialSecurityTax = 10918.20) := by
  constructor
  · rfl
  · intro h
    have h' : SOCIAL_SECURITY_BASE ≤ annualGross i := h
    show min (annualGross i) SOCIAL_SECURITY_BASE * SOCIAL_SECURITY_RATE = 10918.20
    rw [min_eq_right h']
    norm_num [SOCIAL_SECURITY_BASE, SOCIAL_SECURITY_RATE]

/-- Witness for claim C3 at a gross of 200000. -/
theorem socialSecurityTax_capped_witness :
    SOCIAL_SECURITY_BASE ≤ (calculateIncome wageBaseInput).grossAnnual
    ∧ (calculateIncome wageBaseInput).taxes.socialSecurityTax = 10918.20 := by
  have hg : (calculateIncome wageBaseInput).grossAnnual = 200000 := by
    show annualGross wageBaseInput = 200000
    rw [annualGross]
    simp only [wageBaseInput, if_true]
    rw [parseNumber, show cleanChars "200000" = ['2', '0', '0', '0', '0', '0'] from by decide]
    simp [parseFloatHead, floatBody, floatVal, List.takeWhile, List.dropWhile, digitsToNat, digitVal]
  have hle : SOCIAL_SECURITY_BASE ≤ (calculateIncome wageBaseInput).grossAnnual := by
    rw [hg]; norm_num [SOCIAL_SECURITY_BASE]
  exact ⟨hle, (socialSecurityTax_capped wageBaseInput).2 hle⟩

/-- Claim C4: in hourly mode, with the hours fields in the non-negative domain
the data model prescribes for them, annual gross is wage times hoursPerWeek
times 52 plus wage times multiplier times overtimeHours times 52, total annual
hours is (hoursPerWeek + overtimeHours times multiplier) times 52, and the
multiplier defaults to 1.5 whenever the multiplier field parses to 0 (which is
what a zero, invalid or absent input parses to). -/
theorem hourly_mode_formulas (i : IncomeInput)
    (hm : i.salaryChecked = false)
    (hh : 0 ≤ parseNumber i.hoursPerWeek)
    (ho : 0 ≤ parseNumber i.overtimeHours) :
    (calculateIncome i).grossAnnual
        = parseNumber i.hourlyWage * parseNumber i.hoursPerWeek * 52
          + parseNumber i.hourlyWage * overtimeMultiplierUsed i
            * parseNumber i.overtimeHours * 52
    ∧ totalAnnualHours i
        = (parseNumber i.hoursPerWeek
            + parseNumber i.overtimeHours * overtimeMultiplierUsed i) * 52
    ∧ (parseNumber i.overtimeMultiplier = 0 → overtimeMultiplierUsed i = 1.5) := by
  have hb : (if 0 < parseNumber i.hoursPerWeek then parseNumber i.hoursPerWeek else 0)
      = parseNumber i.hoursPerWeek := by
    rw [ite_pos_eq_max, max_eq_left hh]
  have hbo : (if 0 < parseNumber i.overtimeHours then parseNumber i.overtimeHours else 0)
      = parseNumber i.overtimeHours := by
    rw [ite_pos_eq_max, max_eq_left ho]
  refine ⟨?_, ?_, ?_⟩
  · show annualGross i = _
    rw [annualGross, if_neg (by simp [hm]), hb, hbo]
  · rw [totalAnnualHours, if_neg (by simp [hm]), hb, hbo]
  · intro h0
    rw [overtimeMultiplierUsed, if_pos h0]

/-- Witness for claim C4 at the hourly example input. -/
theorem hourly_mode_formulas_witness :
    (calculateIncome hourlyInput).grossAnnual
        = parseNumber hourlyInput.hourlyWage * parseNumber hourlyInput.hoursPerWeek * 52
          + parseNumber hourlyInput.hourlyWage * overtimeMultiplierUsed hourlyInput
            * parseNumber hourlyInput.overtimeHours * 52
    ∧ totalAnnualHours hourlyInput
        = (parseNumber hourlyInput.hoursPerWeek
            + parseNumber hourlyInput.overtimeHours * overtimeMultiplierUsed hourlyInput) * 52
    ∧ (parseNumber hourlyInput.overtimeMultiplier = 0
        → overtimeMultiplierUsed hourlyInput = 1.5) := by
  refine hourly_mode_formulas hourlyInput rfl ?_ ?_
  · show (0 : ℚ) ≤ parseNumber "40"
    rw [parseNumber, show cleanChars "40" = ['4', '0'] from by decide]
    simp [parseFloatHead, floatBody, floatVal, List.takeWhile, List.dropWhile, digitsToNat, digitVal]
  · show (0 : ℚ) ≤ parseNumber "5"
    rw [parseNumber, show cleanChars "5" = ['5'] from by decide]
    simp [parseFloatHead, floatBody, floatVal, List.takeWhile, List.dropWhile, digitsToNat, digitVal]

/-- Non-negativity of the computed gross when the parsed income fields lie in
the non-negative domain the data model prescribes. -/
theorem annualGross_nonneg (i : IncomeInput)
    (hs : 0 ≤ parseNumber i.annualSalary)
    (hw : 0 ≤ parseNumber i.hourlyWage)
    (hm : 0 ≤ parseNumber i.overtimeMultiplier) :
    0 ≤ annualGross i := by
  rw [annualGross]
  split
  · exact hs
  · have h1 : 0 ≤ (if 0 < parseNumber i.hoursPerWeek then parseNumber i.hoursPerWeek else 0) := by
      rw [ite_pos_eq_max]; exact le_max_right _ _
    have h2 : 0 ≤ (if 0 < parseNumber i.overtimeHours then parseNumber i.overtimeHours else 0) := by
      rw [ite_pos_eq_max]; exact le_max_right _ _
    have h3 : 0 ≤ overtimeMultiplierUsed i := by
      rw [overtimeMultiplierUsed]
      split
      · norm_num
      · exact hm
    have h52 : (0 : ℚ) ≤ 52 := by norm_num
    exact add_nonneg (mul_nonneg (mul_nonneg hw h1) h52)
      (mul_nonneg (mul_nonneg (mul_nonneg hw h3) h2) h52)

/-- Claim C5: for every income input in the data-model domain (non-negative
parsed salary, wage and multiplier fields), the effective tax rate is
totalTax divided by annual gross, and 0 when annual gross is 0. -/
theorem effectiveTaxRate_spec (i : IncomeInput)
    (hs : 0 ≤ parseNumber i.annualSalary)
    (hw : 0 ≤ parseNumber i.hourlyWage)
    (hm : 0 ≤ parseNumber i.overtimeMultiplier) :
    ((calculateIncome i).grossAnnual = 0 → (calculateIncome i).effectiveTaxRate = 0)
    ∧ ((calculateIncome i).grossAnnual ≠ 0 →
        (calculateIncome i).effectiveTaxRate
          = (calculateIncome i).taxes.totalTax / (calculateIncome i).grossAnnual) := by
  have hg : 0 ≤ annualGross i := annualGross_nonneg i hs hw hm
  constructor
  · intro h0
    have h0' : annualGross i = 0 := h0
    show (if 0 < annualGross i then _ / annualGross i else 0) = 0
    rw [if_neg (by rw [h0']; exact lt_irrefl 0)]
  · intro hne
    have hne' : annualGross i ≠ 0 := hne
    have hpos : 0 < annualGross i := lt_of_le_of_ne hg (Ne.symm hne')
    show (if 0 < annualGross i then _ / annualGross i else 0) = _
    rw [if_pos hpos]
    rfl

/-- Witness for claim C5: zero-gross input yields an effective tax rate of 0,
and the positive-gross input of 200000 yields totalTax over gross. -/
theorem effectiveTaxRate_spec_witness :
    (calculateIncome zeroGrossInput).effectiveTaxRate = 0
    ∧ (calculateIncome wageBaseInput).effectiveTaxRate
        = (calculateIncome wageBaseInput).taxes.totalTax
          / (calculateIncome wageBaseInput).grossAnnual := by
  have hemp : parseNumber "" = 0 := by rfl
  have h200 : parseNumber "200000" = 200000 := by
    rw [parseNumber, show cleanChars "200000" = ['2', '0', '0', '0', '0', '0'] from by decide]
    simp [parseFloatHead, floatBody, floatVal, List.takeWhile, List.dropWhile, digitsToNat, digitVal]
  constructor
  · refine (effectiveTaxRate_spec zeroGrossInput (by rw [show zeroGrossInput.annualSalary = "" from rfl, hemp]) (by rw [show zeroGrossInput.hourlyWage = "" from rfl, hemp]) (by rw [show zeroGrossInput.overtimeMultiplier = "" from rfl, hemp])).1 ?_
    show annualGross zeroGrossInput = 0
    simp only [annualGross, zeroGrossInput, if_true]
    exact hemp
  · refine (effectiveTaxRate_spec wageBaseInput (by rw [show wageBaseInput.annualSalary = "200000" from rfl, h200]; norm_num) (by rw [show wageBaseInput.hourlyWage = "" from rfl, hemp]) (by rw [show wageBaseInput.overtimeMultiplier = "" from rfl, hemp])).2 ?_
    show annualGross wageBaseInput ≠ 0
    simp only [annualGross, wageBaseInput, if_true]
    rw [h200]
    norm_num

/-- Claim C10 counterexample: the negative hours-per-week input -5 does not
pass through the arithmetic unchanged; calculateIncome clamps it to 0 before
use, so the gross is 0 instead of the pass-through value 10 times -5 times 52. -/
theorem negative_hours_clamped :
    parseNumber negHoursInput.hoursPerWeek = -5
    ∧ (calculateIncome negHoursInput).grossAnnual = 0
    ∧ (calculateIncome negHoursInput).grossAnnual
        ≠ parseNumber negHoursInput.hourlyWage * parseNumber negHoursInput.hoursPerWeek * 52
          + parseNumber negHoursInput.hourlyWage * overtimeMultiplierUsed negHoursInput
            * parseNumber negHoursInput.overtimeHours * 52 := by
  have h5 : parseNumber "-5" = -5 := by
    rw [parseNumber, show cleanChars "-5" = ['-', '5'] from by decide]
    simp [parseFloatHead, floatBody, floatVal, List.takeWhile, List.dropWhile, digitsToNat, digitVal]
  have h10 : parseNumber "10" = 10 := by
    rw [parseNumber, show cleanChars "10" = ['1', '0'] from by decide]
    simp [parseFloatHead, floatBody, floatVal, List.takeWhile, List.dropWhile, digitsToNat, digitVal]
  have hemp : parseNumber "" = 0 := by rfl
  have hg : (calculateIncome negHoursInput).grossAnnual = 0 := by
    show annualGross negHoursInput = 0
    simp only [annualGross, negHoursInput, Bool.false_eq_true, if_false, h5, h10, hemp]
    norm_num
  refine ⟨h5, hg, ?_⟩
  rw [hg]
  simp only [negHoursInput, h5, h10, hemp]
  norm_num

/-- The clamp used for net income is a max with 0. -/
theorem ite_neg_zero_eq_max (x : ℚ) : (if x < 0 then 0 else x) = max x 0 := by
  rcases lt_or_le x 0 with h | h
  · rw [if_pos h, eq_comm, max_eq_right (le_of_lt h)]
  · rw [if_neg (not_lt.2 h), eq_comm]
    exact max_eq_left h

/-- Claim C10 amended: only net income is clamped at 0; gross income and the
expense category totals pass negative parsed values through the arithmetic
unchanged, except that in hourly mode negative hours-per-week and negative
overtime-hours are clamped to 0 before use. -/
theorem clamping_behavior (i : IncomeInput) (e : ExpenseInput) :
    (calculateIncome i).netAnnual
        = max ((calculateIncome i).grossAnnual - (calculateIncome i).taxes.totalTax) 0
    ∧ (i.salaryChecked = true → (calculateIncome i).grossAnnual = parseNumber i.annualSalary)
    ∧ (i.salaryChecked = false →
        (calculateIncome i).grossAnnual
          = parseNumber i.hourlyWage * max (parseNumber i.hoursPerWeek) 0 * 52
            + parseNumber i.hourlyWage * overtimeMultiplierUsed i
              * max (parseNumber i.overtimeHours) 0 * 52)
    ∧ (calculateExpenses e).housingTotal
        = parseNumber e.housingAmount
          + (if e.housingType = "mortgage" then parseNumber e.propertyTax else 0)
          + sumCustomItems e.housingExtras
    ∧ (calculateExpenses e).total
        = (calculateExpenses e).housingTotal + (calculateExpenses e).utilitiesTotal
          + (calculateExpenses e).travelTotal + (calculateExpenses e).foodTotal
          + (calculateExpenses e).additionalTotal
    ∧ (calculateExpenses e).utilitiesTotal
        = parseNumber e.utilitiesBase + sumCustomItems e.utilitiesExtras
    ∧ (calculateExpenses e).vehicleTotal
        = (if e.vehicleChecked then
            parseNumber e.vehiclePayment + parseNumber e.fuelCosts
              + (if 0 < (if parseNumber e.autoInsurancePeriod = 0 then 1
                         else parseNumber e.autoInsurancePeriod)
                 then parseNumber e.autoInsuranceAmount
                        / (if parseNumber e.autoInsurancePeriod = 0 then 1
                           else parseNumber e.autoInsurancePeriod)
                 else 0)
              + sumCustomItems e.vehicleExtras
          else 0)
    ∧ (calculateExpenses e).publicTotal
        = (if e.publicTransportChecked then sumCustomItems e.publicTransportExtras else 0)
    ∧ (calculateExpenses e).rideShareTotal
        = (if e.rideShareChecked then sumCustomItems e.rideShareExtras else 0)
    ∧ (calculateExpenses e).miscTravelTotal
        = (if e.miscTravelChecked then sumCustomItems e.miscTravelExtras else 0)
    ∧ (calculateExpenses e).travelTotal
        = (calculateExpenses e).vehicleTotal + (calculateExpenses e).publicTotal
          + (calculateExpenses e).rideShareTotal + (calculateExpenses e).miscTravelTotal
    ∧ (calculateExpenses e).foodTotal = parseNumber e.foodExpenses
    ∧ (calculateExpenses e).additionalTotal = sumCustomItems e.additionalExpenses := by
  refine ⟨?_, ?_, ?_, rfl, rfl, rfl, rfl, rfl, rfl, rfl, rfl, rfl, rfl⟩
  · show (if annualGross i - (calculateIncome i).taxes.totalTax < 0 then 0
        else annualGross i - (calculateIncome i).taxes.totalTax)
      = max (annualGross i - (calculateIncome i).taxes.totalTax) 0
    exact ite_neg_zero_eq_max _
  · intro h
    show annualGross i = _
    rw [annualGross, if_pos h]
  · intro h
    show annualGross i = _
    rw [annualGross, if_neg (by simp [h]), ite_pos_eq_max, ite_pos_eq_max]

/-- Witness for claim C10 amended, at a salary-mode input, an hourly-mode
input and a concrete expense input. -/
theorem clamping_behavior_witness :
    ((calculateIncome wageBaseInput).grossAnnual = parseNumber wageBaseInput.annualSalary)
    ∧ ((calculateIncome negHoursInput).grossAnnual
        = parseNumber negHoursInput.hourlyWage * max (parseNumber negHoursInput.hoursPerWeek) 0 * 52
          + parseNumber negHoursInput.hourlyWage * overtimeMultiplierUsed negHoursInput
            * max (parseNumber negHoursInput.overtimeHours) 0 * 52)
    ∧ (calculateIncome wageBaseInput).netAnnual
        = max ((calculateIncome wageBaseInput).grossAnnual
            - (calculateIncome wageBaseInput).taxes.totalTax) 0
    ∧ (calculateExpenses wExpenseInput).housingTotal
        = parseNumber wExpenseInput.housingAmount
          + (if wExpenseInput.housingType = "mortgage" then parseNumber wExpenseInput.propertyTax else 0)
          + sumCustomItems wExpenseInput.housingExtras
    ∧ (calculateExpenses negExpenseInput).utilitiesTotal
        = parseNumber negExpenseInput.utilitiesBase
          + sumCustomItems negExpenseInput.utilitiesExtras
    ∧ (calculateExpenses negExpenseInput).publicTotal
        = (if negExpenseInput.publicTransportChecked
           then sumCustomItems negExpenseInput.publicTransportExtras else 0)
    ∧ (calculateExpenses negExpenseInput).foodTotal
        = parseNumber negExpenseInput.foodExpenses
    ∧ (calculateExpenses negExpenseInput).additionalTotal
        = sumCustomItems negExpenseInput.additionalExpenses :=
  ⟨(clamping_behavior wageBaseInput wExpenseInput).2.1 rfl,
   (clamping_behavior negHoursInput wExpenseInput).2.2.1 rfl,
   (clamping_behavior wageBaseInput wExpenseInput).1,
   (clamping_behavior wageBaseInput wExpenseInput).2.2.2.1,
   (clamping_behavior wageBaseInput negExpenseInput).2.2.2.2.2.1,
   (clamping_behavior wageBaseInput negExpenseInput).2.2.2.2.2.2.2.1,
   (clamping_behavior wageBaseInput negExpenseInput).2.2.2.2.2.2.2.2.2.2.2.1,
   (clamping_behavior wageBaseInput negExpenseInput).2.2.2.2.2.2.2.2.2.2.2.2⟩

/-! ## Shape of the federal tax function (claim C2) -/

/-- The bracket walk contributes nothing once the rates list is exhausted. -/
theorem bracketLoop_nil_rates (x prev : ℚ) (ths : List ℚ) :
    bracketLoop x prev ths [] = 0 := by
  cases ths <;> rfl

/-- Final bracket: the upper bound is infinity, so the break branch is taken. -/
theorem bracketLoop_last (x prev r : ℚ) (rs : List ℚ) :
    bracketLoop x prev [] (r :: rs) = (x - prev) * r := rfl

/-- Step of the bracket walk when taxable income exceeds the upper bound. -/
theorem bracketLoop_gt (prev r : ℚ) (ths rs : List ℚ) {u x : ℚ} (h : u < x) :
    bracketLoop x prev (u :: ths) (r :: rs)
      = (u - prev) * r + bracketLoop x u ths rs := by
  simp [bracketLoop, h]

/-- Break branch of the bracket walk when taxable income is within the bound. -/
theorem bracketLoop_le (prev r : ℚ) (ths rs : List ℚ) {u x : ℚ} (h : ¬ u < x) :
    bracketLoop x prev (u :: ths) (r :: rs) = (x - prev) * r := by
  simp [bracketLoop, h]

/-- The bracket walk is non-negative above its starting boundary when the
thresholds ascend and the rates are non-negative. -/
theorem bracketLoop_nonneg : ∀ (rs ths : List ℚ) (prev x : ℚ),
    (∀ r ∈ rs, 0 ≤ r) → List.Chain (· < ·) prev ths → prev ≤ x →
    0 ≤ bracketLoop x prev ths rs := by
  intro rs
  induction rs with
  | nil => intro ths prev x _ _ _; rw [bracketLoop_nil_rates]
  | cons r rs ih =>
    intro ths prev x hr hc hpx
    have hr0 : 0 ≤ r := hr r (List.mem_cons_self r rs)
    cases ths with
    | nil =>
      rw [bracketLoop_last]
      exact mul_nonneg (by linarith) hr0
    | cons u ths =>
      have hpu : prev < u := (List.chain_cons.1 hc).1
      have hc' : List.Chain (· < ·) u ths := (List.chain_cons.1 hc).2
      by_cases hux : u < x
      · rw [bracketLoop_gt _ _ _ _ hux]
        have h1 : 0 ≤ (u - prev) * r := mul_nonneg (by linarith) hr0
        have h2 := ih ths u x (fun r' h' => hr r' (List.mem_cons_of_mem _ h')) hc' (le_of_lt hux)
        linarith
      · rw [bracketLoop_le _ _ _ _ hux]
        exact mul_nonneg (by linarith) hr0

/-- The bracket walk is monotone in taxable income when the thresholds ascend
and the rates are non-negative. -/
theorem bracketLoop_mono : ∀ (rs ths : List ℚ) (prev x y : ℚ),
    (∀ r ∈ rs, 0 ≤ r) → List.Chain (· < ·) prev ths → prev ≤ x → x ≤ y →
    bracketLoop x prev ths rs ≤ bracketLoop y prev ths rs := by
  intro rs
  induction rs with
  | nil => intro ths prev x y _ _ _ _; rw [bracketLoop_nil_rates, bracketLoop_nil_rates]
  | cons r rs ih =>
    intro ths prev x y hr hc hpx hxy
    have hr0 : 0 ≤ r := hr r (List.mem_cons_self r rs)
    have hr' : ∀ r' ∈ rs, 0 ≤ r' := fun r' h' => hr r' (List.mem_cons_of_mem _ h')
    cases ths with
    | nil =>
      rw [bracketLoop_last, bracketLoop_last]
      exact mul_le_mul_of_nonneg_right (by linarith) hr0
    | cons u ths =>
      have hpu : prev < u := (List.chain_cons.1 hc).1
      have hc' : List.Chain (· < ·) u ths := (List.chain_cons.1 hc).2
      by_cases hux : u < x
      · have huy : u < y := lt_of_lt_of_le hux hxy
        rw [bracketLoop_gt _ _ _ _ hux, bracketLoop_gt _ _ _ _ huy]
        have := ih ths u x y hr' hc' (le_of_lt hux) hxy
        linarith
      · by_cases huy : u < y
        · rw [bracketLoop_le _ _ _ _ hux, bracketLoop_gt _ _ _ _ huy]
          have h1 : (x - prev) * r ≤ (u - prev) * r :=
            mul_le_mul_of_nonneg_right (by linarith [not_lt.1 hux]) hr0
          have h2 : 0 ≤ bracketLoop y u ths rs :=
            bracketLoop_nonneg rs ths u y hr' hc' (le_of_lt huy)
          linarith
        · rw [bracketLoop_le _ _ _ _ hux, bracketLoop_le _ _ _ _ huy]
          exact mul_le_mul_of_nonneg_right (by linarith) hr0

/-- All federal marginal rates are non-negative. -/
theorem federalRates_nonneg (s : FilingStatus) :
    ∀ r ∈ (federalBrackets s).rates, 0 ≤ r := by
  cases s <;>
    (intro r hr
     simp only [federalBrackets, List.mem_cons, List.not_mem_nil, or_false] at hr
     rcases hr with rfl | rfl | rfl | rfl | rfl | rfl | rfl <;> norm_num)

/-- The federal thresholds ascend strictly from 0 for every filing status. -/
theorem federalThresholds_chain (s : FilingStatus) :
    List.Chain (· < ·) 0 (federalBrackets s).thresholds := by
  cases s <;> simp [federalBrackets, List.chain_cons] <;> norm_num

/-- The federal tax function is monotone in taxable income. -/
theorem calculateFederalTax_mono (s : FilingStatus) :
    ∀ x y : ℚ, x ≤ y → calculateFederalTax x s ≤ calculateFederalTax y s := by
  intro x y hxy
  rw [calculateFederalTax, calculateFederalTax]
  by_cases hx : x ≤ 0
  · rw [if_pos hx]
    by_cases hy : y ≤ 0
    · rw [if_pos hy]
    · rw [if_neg hy]
      exact bracketLoop_nonneg _ _ 0 y (federalRates_nonneg s) (federalThresholds_chain s)
        (le_of_lt (not_le.1 hy))
  · have hy : ¬ y ≤ 0 := by linarith [not_le.1 hx]
    rw [if_neg hx, if_neg hy]
    exact bracketLoop_mono _ _ 0 x y (federalRates_nonneg s) (federalThresholds_chain s)
      (le_of_lt (not_le.1 hx)) hxy

/-- Affine form of the bracket walk on the second bracket. -/
theorem loopPiece1 {t1 t2 t3 t4 t5 t6 r1 r2 r3 r4 r5 r6 r7 x : ℚ}
    (h01 : 0 < t1) (h12 : t1 < t2) (h23 : t2 < t3) (h34 : t3 < t4)
    (h45 : t4 < t5) (h56 : t5 < t6) (hlo : t1 ≤ x) (hhi : x ≤ t2) :
    bracketLoop x 0 [t1, t2, t3, t4, t5, t6] [r1, r2, r3, r4, r5, r6, r7]
      = bracketLoop t1 0 [t1, t2, t3, t4, t5, t6] [r1, r2, r3, r4, r5, r6, r7]
        + r2 * (x - t1) := by
  rcases eq_or_lt_of_le hlo with h | h
  · rw [← h]; ring
  · rw [bracketLoop_gt _ _ _ _ h, bracketLoop_le _ _ _ _ (not_lt.2 hhi),
      bracketLoop_le _ _ _ _ (lt_irrefl t1)]
    ring

/-- Affine form of the bracket walk on the third bracket. -/
theorem loopPiece2 {t1 t2 t3 t4 t5 t6 r1 r2 r3 r4 r5 r6 r7 x : ℚ}
    (h01 : 0 < t1) (h12 : t1 < t2) (h23 : t2 < t3) (h34 : t3 < t4)
    (h45 : t4 < t5) (h56 : t5 < t6) (hlo : t2 ≤ x) (hhi : x ≤ t3) :
    bracketLoop x 0 [t1, t2, t3, t4, t5, t6] [r1, r2, r3, r4, r5, r6, r7]
      = bracketLoop t2 0 [t1, t2, t3, t4, t5, t6] [r1, r2, r3, r4, r5, r6, r7]
        + r3 * (x - t2) := by
  rcases eq_or_lt_of_le hlo with h | h
  · rw [← h]; ring
  · rw [bracketLoop_gt _ _ _ _ (show t1 < x by linarith),
      bracketLoop_gt _ _ _ _ h, bracketLoop_le _ _ _ _ (not_lt.2 hhi),
      bracketLoop_gt _ _ _ _ h12, bracketLoop_le _ _ _ _ (lt_irrefl t2)]
    ring

/-- Affine form of the bracket walk on the fourth bracket. -/
theorem loopPiece3 {t1 t2 t3 t4 t5 t6 r1 r2 r3 r4 r5 r6 r7 x : ℚ}
    (h01 : 0 < t1) (h12 : t1 < t2) (h23 : t2 < t3) (h34 : t3 < t4)
    (h45 : t4 < t5) (h56 : t5 < t6) (hlo : t3 ≤ x) (hhi : x ≤ t4) :
    bracketLoop x 0 [t1, t2, t3, t4, t5, t6] [r1, r2, r3, r4, r5, r6, r7]
      = bracketLoop t3 0 [t1, t2, t3, t4, t5, t6] [r1, r2, r3, r4, r5, r6, r7]
        + r4 * (x - t3) := by
  rcases eq_or_lt_of_le hlo with h | h
  · rw [← h]; ring
  · rw [bracketLoop_gt _ _ _ _ (show t1 < x by linarith),
      bracketLoop_gt _ _ _ _ (show t2 < x by linarith),
      bracketLoop_gt _ _ _ _ h, bracketLoop_le _ _ _ _ (not_lt.2 hhi),
      bracketLoop_gt _ _ _ _ (show t1 < t3 by linarith),
      bracketLoop_gt _ _ _ _ h23, bracketLoop_le _ _ _ _ (lt_irrefl t3)]
    ring

/-- Affine form of the bracket walk on the fifth bracket. -/
theorem loopPiece4 {t1 t2 t3 t4 t5 t6 r1 r2 r3 r4 r5 r6 r7 x : ℚ}
    (h01 : 0 < t1) (h12 : t1 < t2) (h23 : t2 < t3) (h34 : t3 < t4)
    (h45 : t4 < t5) (h56 : t5 < t6) (hlo : t4 ≤ x) (hhi : x ≤ t5) :
    bracketLoop x 0 [t1, t2, t3, t4, t5, t6] [r1, r2, r3, r4, r5, r6, r7]
      = bracketLoop t4 0 [t1, t2, t3, t4, t5, t6] [r1, r2, r3, r4, r5, r6, r7]
        + r5 * (x - t4) := by
  rcases eq_or_lt_of_le hlo with h | h
  · rw [← h]; ring
  · rw [bracketLoop_gt _ _ _ _ (show t1 < x by linarith),
      bracketLoop_gt _ _ _ _ (show t2 < x by linarith),
      bracketLoop_gt _ _ _ _ (show t3 < x by linarith),
      bracketLoop_gt _ _ _ _ h, bracketLoop_le _ _ _ _ (not_lt.2 hhi),
      bracketLoop_gt _ _ _ _ (show t1 < t4 by linarith),
      bracketLoop_gt _ _ _ _ (show t2 < t4 by linarith),
      bracketLoop_gt _ _ _ _ h34, bracketLoop_le _ _ _ _ (lt_irrefl t4)]
    ring

/-- Affine form of the bracket walk on the sixth bracket. -/
theorem loopPiece5 {t1 t2 t3 t4 t5 t6 r1 r2 r3 r4 r5 r6 r7 x : ℚ}
    (h01 : 0 < t1) (h12 : t1 < t2) (h23 : t2 < t3) (h34 : t3 < t4)
    (h45 : t4 < t5) (h56 : t5 < t6) (hlo : t5 ≤ x) (hhi : x ≤ t6) :
    bracketLoop x 0 [t1, t2, t3, t4, t5, t6] [r1, r2, r3, r4, r5, r6, r7]
      = bracketLoop t5 0 [t1, t2, t3, t4, t5, t6] [r1, r2, r3, r4, r5, r6, r7]
        + r6 * (x - t5) := by
  rcases eq_or_lt_of_le hlo with h | h
  · rw [← h]; ring
  · rw [bracketLoop_gt _ _ _ _ (show t1 < x by linarith),
      bracketLoop_gt _ _ _ _ (show t2 < x by linarith),
      bracketLoop_gt _ _ _ _ (show t3 < x by linarith),
      bracketLoop_gt _ _ _ _ (show t4 < x by linarith),
      bracketLoop_gt _ _ _ _ h, bracketLoop_le _ _ _ _ (not_lt.2 hhi),
      bracketLoop_gt _ _ _ _ (show t1 < t5 by linarith),
      bracketLoop_gt _ _ _ _ (show t2 < t5 by linarith),
      bracketLoop_gt _ _ _ _ (show t3 < t5 by linarith),
      bracketLoop_gt _ _ _ _ h45, bracketLoop_le _ _ _ _ (lt_irrefl t5)]
    ring

/-- Affine form of the bracket walk on the unbounded top bracket. -/
theorem loopPieceTop {t1 t2 t3 t4 t5 t6 r1 r2 r3 r4 r5 r6 r7 x : ℚ}
    (h01 : 0 < t1) (h12 : t1 < t2) (h23 : t2 < t3) (h34 : t3 < t4)
    (h45 : t4 < t5) (h56 : t5 < t6) (hlo : t6 ≤ x) :
    bracketLoop x 0 [t1, t2, t3, t4, t5, t6] [r1, r2, r3, r4, r5, r6, r7]
      = bracketLoop t6 0 [t1, t2, t3, t4, t5, t6] [r1, r2, r3, r4, r5, r6, r7]
        + r7 * (x - t6) := by
  rcases eq_or_lt_of_le hlo with h | h
  · rw [← h]; ring
  · rw [bracketLoop_gt _ _ _ _ (show t1 < x by linarith),
      bracketLoop_gt _ _ _ _ (show t2 < x by linarith),
      bracketLoop_gt _ _ _ _ (show t3 < x by linarith),
      bracketLoop_gt _ _ _ _ (show t4 < x by linarith),
      bracketLoop_gt _ _ _ _ (show t5 < x by linarith),
      bracketLoop_gt _ _ _ _ h, bracketLoop_last,
      bracketLoop_gt _ _ _ _ (show t1 < t6 by linarith),
      bracketLoop_gt _ _ _ _ (show t2 < t6 by linarith),
      bracketLoop_gt _ _ _ _ (show t3 < t6 by linarith),
      bracketLoop_gt _ _ _ _ (show t4 < t6 by linarith),
      bracketLoop_gt _ _ _ _ h56, bracketLoop_le _ _ _ _ (lt_irrefl t6)]
    ring

/-- Claim C2: for every filing status the federal tax function returns 0 at
taxable income 0, is non-decreasing in taxable income, and is piecewise linear
with an affine formula on each closed bracket segment (and on the unbounded
top segment), pinned at the left breakpoint; since consecutive segments share
their endpoint values, the function is continuous at every bracket boundary. -/
theorem federalTax_shape (s : FilingStatus) :
    calculateFederalTax 0 s = 0
    ∧ (∀ x y : ℚ, x ≤ y → calculateFederalTax x s ≤ calculateFederalTax y s)
    ∧ (∀ i : ℕ, i + 1 < (breakpoints s).length →
        ∀ x : ℚ, (breakpoints s).getD i 0 ≤ x → x ≤ (breakpoints s).getD (i + 1) 0 →
          calculateFederalTax x s
            = calculateFederalTax ((breakpoints s).getD i 0) s
              + (federalBrackets s).rates.getD i 0 * (x - (breakpoints s).getD i 0))
    ∧ (∀ x : ℚ, (breakpoints s).getD 6 0 ≤ x →
        calculateFederalTax x s
          = calculateFederalTax ((breakpoints s).getD 6 0) s
            + (federalBrackets s).rates.getD 6 0 * (x - (breakpoints s).getD 6 0)) := by
  refine ⟨by rw [calculateFederalTax, if_pos le_rfl], calculateFederalTax_mono s, ?_, ?_⟩
  · cases s
    case single =>
      intro i hi x
      have hi7 : i + 1 < 7 := hi
      have hi6 : i ≤ 5 := by omega
      interval_cases i
      · show (0 : ℚ) ≤ x → x ≤ 11925 →
          calculateFederalTax x .single
            = calculateFederalTax 0 .single + 0.10 * (x - 0)
        intro h1 h2
        rcases eq_or_lt_of_le h1 with h | h
        · rw [← h, calculateFederalTax, if_pos le_rfl]
          norm_num
        · rw [calculateFederalTax, if_neg (not_le.2 h), calculateFederalTax,
            if_pos le_rfl]
          simp only [federalBrackets]
          rw [bracketLoop_le _ _ _ _ (not_lt.2 h2)]
          ring
      · show (11925 : ℚ) ≤ x → x ≤ 48475 →
          calculateFederalTax x .single
            = calculateFederalTax 11925 .single + 0.12 * (x - 11925)
        intro h1 h2
        have hx0 : ¬ x ≤ (0 : ℚ) := by linarith
        have hlo0 : ¬ (11925 : ℚ) ≤ (0 : ℚ) := by norm_num
        rw [calculateFederalTax, if_neg hx0, calculateFederalTax, if_neg hlo0]
        simp only [federalBrackets]
        exact loopPiece1 (by norm_num) (by norm_num) (by norm_num) (by norm_num) (by norm_num) (by norm_num) h1 h2
      · show (48475 : ℚ) ≤ x → x ≤ 103350 →
          calculateFederalTax x .single
            = calculateFederalTax 48475 .single + 0.22 * (x - 48475)
        intro h1 h2
        have hx0 : ¬ x ≤ (0 : ℚ) := by linarith
        have hlo0 : ¬ (48475 : ℚ) ≤ (0 : ℚ) := by norm_num
        rw [calculateFederalTax, if_neg hx0, calculateFederalTax, if_neg hlo0]
        simp only [federalBrackets]
        exact loopPiece2 (by norm_num) (by norm_num) (by norm_num) (by norm_num) (by norm_num) (by norm_num) h1 h2
      · show (103350 : ℚ) ≤ x → x ≤ 197300 →
          calculateFederalTax x .single
            = calculateFederalTax 103350 .single + 0.24 * (x - 103350)
        intro h1 h2
        have hx0 : ¬ x ≤ (0 : ℚ) := by linarith
        have hlo0 : ¬ (103350 : ℚ) ≤ (0 : ℚ) := by norm_num
        rw [calculateFederalTax, if_neg hx0, calculateFederalTax, if_neg hlo0]
        simp only [federalBrackets]
        exact loopPiece3 (by norm_num) (by norm_num) (by norm_num) (by norm_num) (by norm_num) (by norm_num) h1 h2
      · show (197300 : ℚ) ≤ x → x ≤ 250525 →
          calculateFederalTax x .single
            = calculateFederalTax 197300 .single + 0.32 * (x - 197300)
        intro h1 h2
        have hx0 : ¬ x ≤ (0 : ℚ) := by linarith
        have hlo0 : ¬ (197300 : ℚ) ≤ (0 : ℚ) := by norm_num
        rw [calculateFederalTax, if_neg hx0, calculateFederalTax, if_neg hlo0]
        simp only [federalBrackets]
        exact loopPiece4 (by norm_num) (by norm_num) (by norm_num) (by norm_num) (by norm_num) (by norm_num) h1 h2
      · show (250525 : ℚ) ≤ x → x ≤ 626350 →
          calculateFederalTax x .single
            = calculateFederalTax 250525 .single + 0.35 * (x - 250525)
        intro h1 h2
        have hx0 : ¬ x ≤ (0 : ℚ) := by linarith
        have hlo0 : ¬ (250525 : ℚ) ≤ (0 : ℚ) := by norm_num
        rw [calculateFederalTax, if_neg hx0, calculateFederalTax, if_neg hlo0]
        simp only [federalBrackets]
        exact loopPiece5 (by norm_num) (by norm_num) (by norm_num) (by norm_num) (by norm_num) (by norm_num) h1 h2
    case married =>
      intro i hi x
      have hi7 : i + 1 < 7 := hi
      have hi6 : i ≤ 5 := by omega
      interval_cases i
      · show (0 : ℚ) ≤ x → x ≤ 23850 →
          calculateFederalTax x .married
            = calculateFederalTax 0 .married + 0.10 * (x - 0)
        intro h1 h2
        rcases eq_or_lt_of_le h1 with h | h
        · rw [← h, calculateFederalTax, if_pos le_rfl]
          norm_num
        · rw [calculateFederalTax, if_neg (not_le.2 h), calculateFederalTax,
            if_pos le_rfl]
          simp only [federalBrackets]
          rw [bracketLoop_le _ _ _ _ (not_lt.2 h2)]
          ring
      · show (23850 : ℚ) ≤ x → x ≤ 96950 →
          calculateFederalTax x .married
            = calculateFederalTax 23850 .married + 0.12 * (x - 23850)
        intro h1 h2
        have hx0 : ¬ x ≤ (0 : ℚ) := by linarith
        have hlo0 : ¬ (23850 : ℚ) ≤ (0 : ℚ) := by norm_num
        rw [calculateFederalTax, if_neg hx0, calculateFederalTax, if_neg hlo0]
        simp only [federalBrackets]
        exact loopPiece1 (by norm_num) (by norm_num) (by norm_num) (by norm_num) (by norm_num) (by norm_num) h1 h2
      · show (96950 : ℚ) ≤ x → x ≤ 206700 →
          calculateFederalTax x .married
            = calculateFederalTax 96950 .married + 0.22 * (x - 96950)
        intro h1 h2
        have hx0 : ¬ x ≤ (0 : ℚ) := by linarith
        have hlo0 : ¬ (96950 : ℚ) ≤ (0 : ℚ) := by norm_num
        rw [calculateFederalTax, if_neg hx0, calculateFederalTax, if_neg hlo0]
        simp only [federalBrackets]
        exact loopPiece2 (by norm_num) (by norm_num) (by norm_num) (by norm_num) (by norm_num) (by norm_num) h1 h2
      · show (206700 : ℚ) ≤ x → x ≤ 394600 →
          calculateFederalTax x .married
            = calculateFederalTax 206700 .married + 0.24 * (x - 206700)
        intro h1 h2
        have hx0 : ¬ x ≤ (0 : ℚ) := by linarith
        have hlo0 : ¬ (206700 : ℚ) ≤ (0 : ℚ) := by norm_num
        rw [calculateFederalTax, if_neg hx0, calculateFederalTax, if_neg hlo0]
        simp only [federalBrackets]
        exact loopPiece3 (by norm_num) (by norm_num) (by norm_num) (by norm_num) (by norm_num) (by norm_num) h1 h2
      · show (394600 : ℚ) ≤ x → x ≤ 501050 →
          calculateFederalTax x .married
            = calculateFederalTax 394600 .married + 0.32 * (x - 394600)
        intro h1 h2
        have hx0 : ¬ x ≤ (0 : ℚ) := by linarith
        have hlo0 : ¬ (394600 : ℚ) ≤ (0 : ℚ) := by norm_num
        rw [calculateFederalTax, if_neg hx0, calculateFederalTax, if_neg hlo0]
        simp only [federalBrackets]
        exact loopPiece4 (by norm_num) (by norm_num) (by norm_num) (by norm_num) (by norm_num) (by norm_num) h1 h2
      · show (501050 : ℚ) ≤ x → x ≤ 751600 →
          calculateFederalTax x .married
            = calculateFederalTax 501050 .married + 0.35 * (x - 501050)
        intro h1 h2
        have hx0 : ¬ x ≤ (0 : ℚ) := by linarith
        have hlo0 : ¬ (501050 : ℚ) ≤ (0 : ℚ) := by norm_num
        rw [calculateFederalTax, if_neg hx0, calculateFederalTax, if_neg hlo0]
        simp only [federalBrackets]
        exact loopPiece5 (by norm_num) (by norm_num) (by norm_num) (by norm_num) (by norm_num) (by norm_num) h1 h2
    case head =>
      intro i hi x
      have hi7 : i + 1 < 7 := hi
      have hi6 : i ≤ 5 := by omega
      interval_cases i
      · show (0 : ℚ) ≤ x → x ≤ 17000 →
          calculateFederalTax x .head
            = calculateFederalTax 0 .head + 0.10 * (x - 0)
        intro h1 h2
        rcases eq_or_lt_of_le h1 with h | h
        · rw [← h, calculateFederalTax, if_pos le_rfl]
          norm_num
        · rw [calculateFederalTax, if_neg (not_le.2 h), calculateFederalTax,
            if_pos le_rfl]
          simp only [federalBrackets]
          rw [bracketLoop_le _ _ _ _ (not_lt.2 h2)]
          ring
      · show (17000 : ℚ) ≤ x → x ≤ 64850 →
          calculateFederalTax x .head
            = calculateFederalTax 17000 .head + 0.12 * (x - 17000)
        intro h1 h2
        have hx0 : ¬ x ≤ (0 : ℚ) := by linarith
        have hlo0 : ¬ (17000 : ℚ) ≤ (0 : ℚ) := by norm_num
        rw [calculateFederalTax, if_neg hx0, calculateFederalTax, if_neg hlo0]
        simp only [federalBrackets]
        exact loopPiece1 (by norm_num) (by norm_num) (by norm_num) (by norm_num) (by norm_num) (by norm_num) h1 h2
      · show (64850 : ℚ) ≤ x → x ≤ 103350 →
          calculateFederalTax x .head
            = calculateFederalTax 64850 .head + 0.22 * (x - 64850)
        intro h1 h2
        have hx0 : ¬ x ≤ (0 : ℚ) := by linarith
        have hlo0 : ¬ (64850 : ℚ) ≤ (0 : ℚ) := by norm_num
        rw [calculateFederalTax, if_neg hx0, calculateFederalTax, if_neg hlo0]
        simp only [federalBrackets]
        exact loopPiece2 (by norm_num) (by norm_num) (by norm_num) (by norm_num) (by norm_num) (by norm_num) h1 h2
      · show (103350 : ℚ) ≤ x → x ≤ 197300 →
          calculateFederalTax x .head
            = calculateFederalTax 103350 .head + 0.24 * (x - 103350)
        intro h1 h2
        have hx0 : ¬ x ≤ (0 : ℚ) := by linarith
        have hlo0 : ¬ (103350 : ℚ) ≤ (0 : ℚ) := by norm_num
        rw [calculateFederalTax, if_neg hx0, calculateFederalTax, if_neg hlo0]
        simp only [federalBrackets]
        exact loopPiece3 (by norm_num) (by norm_num) (by norm_num) (by norm_num) (by norm_num) (by norm_num) h1 h2
      · show (197300 : ℚ) ≤ x → x ≤ 250500 →
          calculateFederalTax x .head
            = calculateFederalTax 197300 .head + 0.32 * (x - 197300)
        intro h1 h2
        have hx0 : ¬ x ≤ (0 : ℚ) := by linarith
        have hlo0 : ¬ (197300 : ℚ) ≤ (0 : ℚ) := by norm_num
        rw [calculateFederalTax, if_neg hx0, calculateFederalTax, if_neg hlo0]
        simp only [federalBrackets]
        exact loopPiece4 (by norm_num) (by norm_num) (by norm_num) (by norm_num) (by norm_num) (by norm_num) h1 h2
      · show (250500 : ℚ) ≤ x → x ≤ 626350 →
          calculateFederalTax x .head
            = calculateFederalTax 250500 .head + 0.35 * (x - 250500)
        intro h1 h2
        have hx0 : ¬ x ≤ (0 : ℚ) := by linarith
        have hlo0 : ¬ (250500 : ℚ) ≤ (0 : ℚ) := by norm_num
        rw [calculateFederalTax, if_neg hx0, calculateFederalTax, if_neg hlo0]
        simp only [federalBrackets]
        exact loopPiece5 (by norm_num) (by norm_num) (by norm_num) (by norm_num) (by norm_num) (by norm_num) h1 h2
  · cases s
    case single =>
      intro x h1
      show calculateFederalTax x .single
          = calculateFederalTax 626350 .single + 0.37 * (x - 626350)
      have h1' : (626350 : ℚ) ≤ x := h1
      have hx0 : ¬ x ≤ (0 : ℚ) := by linarith
      have hlo0 : ¬ (626350 : ℚ) ≤ (0 : ℚ) := by norm_num
      rw [calculateFederalTax, if_neg hx0, calculateFederalTax, if_neg hlo0]
      simp only [federalBrackets]
      exact loopPieceTop (by norm_num) (by norm_num) (by norm_num) (by norm_num) (by norm_num) (by norm_num) h1'
    case married =>
      intro x h1
      show calculateFederalTax x .married
          = calculateFederalTax 751600 .married + 0.37 * (x - 751600)
      have h1' : (751600 : ℚ) ≤ x := h1
      have hx0 : ¬ x ≤ (0 : ℚ) := by linarith
      have hlo0 : ¬ (751600 : ℚ) ≤ (0 : ℚ) := by norm_num
      rw [calculateFederalTax, if_neg hx0, calculateFederalTax, if_neg hlo0]
      simp only [federalBrackets]
      exact loopPieceTop (by norm_num) (by norm_num) (by norm_num) (by norm_num) (by norm_num) (by norm_num) h1'
    case head =>
      intro x h1
      show calculateFederalTax x .head
          = calculateFederalTax 626350 .head + 0.37 * (x - 626350)
      have h1' : (626350 : ℚ) ≤ x := h1
      have hx0 : ¬ x ≤ (0 : ℚ) := by linarith
      have hlo0 : ¬ (626350 : ℚ) ≤ (0 : ℚ) := by norm_num
      rw [calculateFederalTax, if_neg hx0, calculateFederalTax, if_neg hlo0]
      simp only [federalBrackets]
      exact loopPieceTop (by norm_num) (by norm_num) (by norm_num) (by norm_num) (by norm_num) (by norm_num) h1'

/-- Witness for claim C2: zero at zero, monotone step from 30000 to 60000,
the affine formula at 50000 inside the third single bracket, and the affine
formula at 700000 on the unbounded top bracket. -/
theorem federalTax_shape_witness :
    calculateFederalTax 0 .single = 0
    ∧ calculateFederalTax 30000 .single ≤ calculateFederalTax 60000 .single
    ∧ calculateFederalTax 50000 .single
        = calculateFederalTax ((breakpoints .single).getD 2 0) .single
          + (federalBrackets .single).rates.getD 2 0 * (50000 - (breakpoints .single).getD 2 0)
    ∧ calculateFederalTax 700000 .single
        = calculateFederalTax ((breakpoints .single).getD 6 0) .single
          + (federalBrackets .single).rates.getD 6 0 * (700000 - (breakpoints .single).getD 6 0) :=
  ⟨(federalTax_shape .single).1,
   (federalTax_shape .single).2.1 30000 60000 (by norm_num),
   (federalTax_shape .single).2.2.1 2 (show 2 + 1 < 7 by norm_num) 50000
     (show (48475 : ℚ) ≤ 50000 by norm_num) (show (50000 : ℚ) ≤ 103350 by norm_num),
   (federalTax_shape .single).2.2.2 700000 (show (626350 : ℚ) ≤ 700000 by norm_num)⟩

/-- A kept character is a digit, a dot or a minus sign. -/
theorem jsKeep_cases {c : Char} (h : jsKeep c = true) :
    c.isDigit = true ∨ c = '.' ∨ c = '-' := by
  simpa [jsKeep, Bool.or_eq_true, beq_iff_eq, or_assoc] using h

/-- takeWhile runs through a fully satisfying block. -/
theorem takeWhile_app (p : Char → Bool) :
    ∀ l r : List Char, (∀ c ∈ l, p c = true) →
      (l ++ r).takeWhile p = l ++ r.takeWhile p := by
  intro l
  induction l with
  | nil => intro r _; rfl
  | cons a l ih =>
    intro r h
    rw [List.cons_append, List.takeWhile_cons, if_pos (h a (List.mem_cons_self a l)),
      ih r (fun c hc => h c (List.mem_cons_of_mem a hc)), List.cons_append]

/-- dropWhile runs through a fully satisfying block. -/
theorem dropWhile_app (p : Char → Bool) :
    ∀ l r : List Char, (∀ c ∈ l, p c = true) →
      (l ++ r).dropWhile p = r.dropWhile p := by
  intro l
  induction l with
  | nil => intro r _; rfl
  | cons a l ih =>
    intro r h
    rw [List.cons_append, List.dropWhile_cons, if_pos (h a (List.mem_cons_self a l)),
      ih r (fun c hc => h c (List.mem_cons_of_mem a hc))]

/-- takeWhile stops at the first unsatisfying character. -/
theorem takeWhile_cons_neg {p : Char → Bool} {c : Char} (t : List Char) (h : p c = false) :
    (c :: t).takeWhile p = [] := by
  rw [List.takeWhile_cons, if_neg (by simp [h])]

/-- dropWhile stops at the first unsatisfying character. -/
theorem dropWhile_cons_neg {p : Char → Bool} {c : Char} (t : List Char) (h : p c = false) :
    (c :: t).dropWhile p = c :: t := by
  rw [List.dropWhile_cons, if_neg (by simp [h])]

/-- The head of the dropWhile remainder does not satisfy the predicate. -/
theorem dropWhile_head_not (p : Char → Bool) :
    ∀ (l : List Char) {c : Char} {t : List Char}, l.dropWhile p = c :: t → p c = false := by
  intro l
  induction l with
  | nil => intro c t h; cases h
  | cons a l ih =>
    intro c t h
    rw [List.dropWhile_cons] at h
    by_cases ha : p a = true
    · exact ih (by rwa [if_pos ha] at h)
    · rw [if_neg ha] at h
      cases h
      exact Bool.eq_false_iff.2 ha

/-- Searching the descending range finds the greatest satisfying index. -/
theorem find_desc (P : ℕ → Bool) :
    ∀ (N k : ℕ), k ≤ N → P k = true → (∀ m, k < m → m ≤ N → P m = false) →
      (List.range (N + 1)).reverse.find? P = some k := by
  intro N
  induction N with
  | zero =>
    intro k hk hP _
    interval_cases k
    simp only [List.range_succ, List.range_zero, List.nil_append, List.reverse_cons,
      List.reverse_nil, List.nil_append]
    rw [List.find?_cons_of_pos _ hP]
  | succ N ih =>
    intro k hk hP hmax
    rw [List.range_succ, List.reverse_append, List.reverse_singleton, List.singleton_append]
    by_cases hkN : k = N + 1
    · subst hkN
      rw [List.find?_cons_of_pos _ hP]
    · rw [List.find?_cons_of_neg _ (by simp [hmax (N + 1) (by omega) (by omega)])]
      exact ih k (by omega) hP (fun m h1 h2 => hmax m h1 (by omega))

/-- takeWhile keeps a fully satisfying list. -/
theorem takeWhile_all {p : Char → Bool} {l : List Char} (h : ∀ c ∈ l, p c = true) :
    l.takeWhile p = l := by
  have := takeWhile_app p l [] h
  simpa using this

/-- dropWhile drops a fully satisfying list. -/
theorem dropWhile_all {p : Char → Bool} {l : List Char} (h : ∀ c ∈ l, p c = true) :
    l.dropWhile p = [] := by
  have := dropWhile_app p l [] h
  simpa using this

/-- The numeral recognizer on a pure digit run. -/
theorem bodyLit_digits (ds : List Char) (hds : ∀ c ∈ ds, c.isDigit = true) :
    bodyLit ds = !ds.isEmpty := by
  simp [bodyLit, takeWhile_all hds, dropWhile_all hds]

/-- The numeral recognizer on digits, a dot, and a remainder. -/
theorem bodyLit_digits_dot (ds l : List Char) (hds : ∀ c ∈ ds, c.isDigit = true) :
    bodyLit (ds ++ '.' :: l) = (l.all Char.isDigit && (!ds.isEmpty || !l.isEmpty)) := by
  have h1 : (ds ++ '.' :: l).takeWhile Char.isDigit = ds := by
    rw [takeWhile_app _ _ _ hds, takeWhile_cons_neg _ (by decide), List.append_nil]
  have h2 : (ds ++ '.' :: l).dropWhile Char.isDigit = '.' :: l := by
    rw [dropWhile_app _ _ _ hds, dropWhile_cons_neg _ (by decide)]
  simp [bodyLit, h1, h2]

/-- The numeral recognizer rejects digits followed by a minus sign. -/
theorem bodyLit_digits_dash (ds l : List Char) (hds : ∀ c ∈ ds, c.isDigit = true) :
    bodyLit (ds ++ '-' :: l) = false := by
  have h1 : (ds ++ '-' :: l).takeWhile Char.isDigit = ds := by
    rw [takeWhile_app _ _ _ hds, takeWhile_cons_neg _ (by decide), List.append_nil]
  have h2 : (ds ++ '-' :: l).dropWhile Char.isDigit = '-' :: l := by
    rw [dropWhile_app _ _ _ hds, dropWhile_cons_neg _ (by decide)]
  simp [bodyLit, h1, h2]

/-- The unsigned parser on a pure digit run. -/
theorem floatBody_digits (ds : List Char) (hds : ∀ c ∈ ds, c.isDigit = true) :
    floatBody ds = if ds.isEmpty then none else some (floatVal ds []) := by
  simp [floatBody, takeWhile_all hds, dropWhile_all hds]

/-- The unsigned parser on digits, a dot, fractional digits and a remainder
that does not start with a digit. -/
theorem floatBody_digits_dot (ds fs r : List Char) (hds : ∀ c ∈ ds, c.isDigit = true)
    (hfs : ∀ c ∈ fs, c.isDigit = true) (hr : ∀ c t, r = c :: t → c.isDigit = false) :
    floatBody (ds ++ '.' :: (fs ++ r))
      = if ds.isEmpty && fs.isEmpty then none else some (floatVal ds fs) := by
  have h1 : (ds ++ '.' :: (fs ++ r)).takeWhile Char.isDigit = ds := by
    rw [takeWhile_app _ _ _ hds, takeWhile_cons_neg _ (by decide), List.append_nil]
  have h2 : (ds ++ '.' :: (fs ++ r)).dropWhile Char.isDigit = '.' :: (fs ++ r) := by
    rw [dropWhile_app _ _ _ hds, dropWhile_cons_neg _ (by decide)]
  have h3 : (fs ++ r).takeWhile Char.isDigit = fs := by
    cases r with
    | nil => rw [List.append_nil, takeWhile_all hfs]
    | cons c2 t2 =>
      rw [takeWhile_app _ _ _ hfs, takeWhile_cons_neg _ (hr c2 t2 rfl), List.append_nil]
  simp [floatBody, h1, h2, h3]

/-- The unsigned parser on digits followed by a minus sign. -/
theorem floatBody_digits_dash (ds l : List Char) (hds : ∀ c ∈ ds, c.isDigit = true) :
    floatBody (ds ++ '-' :: l) = if ds.isEmpty then none else some (floatVal ds []) := by
  have h1 : (ds ++ '-' :: l).takeWhile Char.isDigit = ds := by
    rw [takeWhile_app _ _ _ hds, takeWhile_cons_neg _ (by decide), List.append_nil]
  have h2 : (ds ++ '-' :: l).dropWhile Char.isDigit = '-' :: l := by
    rw [dropWhile_app _ _ _ hds, dropWhile_cons_neg _ (by decide)]
  simp [floatBody, h1, h2]

/-- The empty list is not a decimal numeral. -/
theorem isDecimalLit_nil : isDecimalLit [] = false := rfl

/-- A leading minus sign defers to the unsigned recognizer. -/
theorem isDecimalLit_dash (l : List Char) : isDecimalLit ('-' :: l) = bodyLit l := rfl

/-- Without a leading minus sign the signed and unsigned recognizers agree. -/
theorem isDecimalLit_eq_bodyLit {l : List Char} (h : l.head? ≠ some '-') :
    isDecimalLit l = bodyLit l := by
  rw [isDecimalLit, if_neg (by simpa using h)]

/-- Every cleaned character list decomposes as a pure digit run, or digits
followed by a dot, fractional digits and a non-digit remainder, or digits
followed by a minus sign. -/
theorem body_shape (body : List Char) (hb : ∀ c ∈ body, jsKeep c = true) :
    (∀ c ∈ body, c.isDigit = true)
    ∨ (∃ ds fs r, body = ds ++ '.' :: (fs ++ r)
        ∧ (∀ c ∈ ds, c.isDigit = true) ∧ (∀ c ∈ fs, c.isDigit = true)
        ∧ (∀ c t, r = c :: t → c.isDigit = false))
    ∨ (∃ ds l, body = ds ++ '-' :: l ∧ (∀ c ∈ ds, c.isDigit = true)) := by
  have hsplit : body.takeWhile Char.isDigit ++ body.dropWhile Char.isDigit = body :=
    List.takeWhile_append_dropWhile Char.isDigit body
  have hds : ∀ c ∈ body.takeWhile Char.isDigit, c.isDigit = true :=
    fun c hc => List.mem_takeWhile_imp hc
  rcases hrest : body.dropWhile Char.isDigit with _ | ⟨c, t⟩
  · left
    intro c hc
    rw [hrest, List.append_nil] at hsplit
    rw [← hsplit] at hc
    exact List.mem_takeWhile_imp hc
  · have hcd : c.isDigit = false := dropWhile_head_not _ body hrest
    have hcmem : c ∈ body := by
      have hsuf : body.dropWhile Char.isDigit <:+ body := List.dropWhile_suffix _
      exact hsuf.sublist.subset (by rw [hrest]; exact List.mem_cons_self c t)
    rcases jsKeep_cases (hb c hcmem) with hd | hdot | hdash
    · rw [hd] at hcd; cases hcd
    · right; left
      subst hdot
      have htsub : ∀ c' ∈ t, c' ∈ body := by
        intro c' hc'
        have hsuf : body.dropWhile Char.isDigit <:+ body := List.dropWhile_suffix _
        exact hsuf.sublist.subset (by rw [hrest]; exact List.mem_cons_of_mem _ hc')
      refine ⟨body.takeWhile Char.isDigit, t.takeWhile Char.isDigit,
        t.dropWhile Char.isDigit, ?_, hds, fun c hc => List.mem_takeWhile_imp hc, ?_⟩
      · rw [List.takeWhile_append_dropWhile Char.isDigit t, ← hrest]
        exact hsplit.symm
      · intro c2 t2 h2
        exact dropWhile_head_not _ t h2
    · right; right
      subst hdash
      exact ⟨body.takeWhile Char.isDigit, t, by rw [← hrest]; exact hsplit.symm, hds⟩

/-- When the unsigned parser rejects, no prefix is an unsigned numeral. -/
theorem bodyLit_take_false_of_none (body : List Char) (hb : ∀ c ∈ body, jsKeep c = true)
    (h : floatBody body = none) : ∀ n : ℕ, bodyLit (body.take n) = false := by
  rcases body_shape body hb with hall | ⟨ds, fs, r, hbody, hds, hfs, hr⟩ | ⟨ds, l, hbody, hds⟩
  · rw [floatBody_digits body hall] at h
    by_cases hE : body.isEmpty = true
    · have : body = [] := List.isEmpty_iff.1 hE
      subst this
      intro n
      rw [List.take_nil]
      exact isDecimalLit_nil
    · rw [if_neg hE] at h
      cases h
  · rw [hbody, floatBody_digits_dot ds fs r hds hfs hr] at h
    by_cases hE : (ds.isEmpty && fs.isEmpty) = true
    · have hdse : ds = [] := List.isEmpty_iff.1 (Bool.and_eq_true_iff.1 hE).1
      have hfse : fs = [] := List.isEmpty_iff.1 (Bool.and_eq_true_iff.1 hE).2
      subst hdse; subst hfse
      rw [List.nil_append, List.nil_append] at hbody
      subst hbody
      intro n
      cases n with
      | zero => exact isDecimalLit_nil
      | succ j =>
        rw [List.take_succ_cons]
        have := bodyLit_digits_dot [] (r.take j) (by intro c hc; cases hc)
        rw [List.nil_append] at this
        rw [this]
        cases r with
        | nil => simp
        | cons c2 t2 =>
          cases j with
          | zero => simp
          | succ j2 =>
            rw [List.take_succ_cons]
            simp [hr c2 t2 rfl]
    · rw [if_neg hE] at h
      cases h
  · rw [hbody, floatBody_digits_dash ds l hds] at h
    by_cases hE : ds.isEmpty = true
    · have hdse : ds = [] := List.isEmpty_iff.1 hE
      subst hdse
      rw [List.nil_append] at hbody
      subst hbody
      intro n
      cases n with
      | zero => exact isDecimalLit_nil
      | succ j =>
        rw [List.take_succ_cons]
        have := bodyLit_digits_dash [] (l.take j) (by intro c hc; cases hc)
        rw [List.nil_append] at this
        rw [this]
    · rw [if_neg hE] at h
      cases h

/-- When the unsigned parser accepts, the consumed prefix is the longest
prefix that is an unsigned numeral, and parses to the same value. -/
theorem floatBody_some_longest (body : List Char) (hb : ∀ c ∈ body, jsKeep c = true)
    {v : ℚ} (h : floatBody body = some v) :
    ∃ k, k ≤ body.length ∧ bodyLit (body.take k) = true
      ∧ (∀ m, k < m → m ≤ body.length → bodyLit (body.take m) = false)
      ∧ floatBody (body.take k) = some v := by
  rcases body_shape body hb with hall | ⟨ds, fs, r, hbody, hds, hfs, hr⟩ | ⟨ds, l, hbody, hds⟩
  · rw [floatBody_digits body hall] at h
    by_cases hE : body.isEmpty = true
    · rw [if_pos hE] at h; cases h
    · rw [if_neg hE] at h
      refine ⟨body.length, le_refl _, ?_, ?_, ?_⟩
      · rw [List.take_length, bodyLit_digits body hall]
        simp [Bool.eq_false_iff.2 hE]
      · intro m hm1 hm2; omega
      · rw [List.take_length, floatBody_digits body hall, if_neg hE]
        exact h
  · rw [hbody, floatBody_digits_dot ds fs r hds hfs hr] at h
    by_cases hE : (ds.isEmpty && fs.isEmpty) = true
    · rw [if_pos hE] at h; cases h
    · rw [if_neg hE] at h
      refine ⟨ds.length + 1 + fs.length, ?_, ?_, ?_, ?_⟩
      · rw [hbody]; simp [List.length_append]; omega
      · have htake : body.take (ds.length + 1 + fs.length) = ds ++ '.' :: fs := by
          rw [hbody, List.take_append_eq_append_take, List.take_of_length_le (by omega),
            show ds.length + 1 + fs.length - ds.length = fs.length + 1 from by omega,
            List.take_succ_cons, List.take_left]
        rw [htake, bodyLit_digits_dot ds fs hds, List.all_eq_true.2 hfs]
        cases hdse : ds.isEmpty <;> cases hfse : fs.isEmpty <;> simp_all
      · intro m hm1 hm2
        rcases r with _ | ⟨c2, t2⟩
        · rw [hbody] at hm2
          simp [List.length_append] at hm2
          omega
        · have htakem : body.take m
              = ds ++ '.' :: (fs ++ c2 :: t2.take (m - (ds.length + 1 + fs.length) - 1)) := by
            rw [hbody, List.take_append_eq_append_take, List.take_of_length_le (by omega),
              show m - ds.length = (fs.length + (m - (ds.length + 1 + fs.length))) + 1
                from by omega,
              List.take_succ_cons, List.take_append_eq_append_take,
              List.take_of_length_le (by omega),
              show fs.length + (m - (ds.length + 1 + fs.length)) - fs.length
                  = (m - (ds.length + 1 + fs.length) - 1) + 1 from by omega,
              List.take_succ_cons]
          rw [htakem, bodyLit_digits_dot ds _ hds]
          simp [List.all_append, hr c2 t2 rfl]
      · have htake : body.take (ds.length + 1 + fs.length) = ds ++ '.' :: fs := by
          rw [hbody, List.take_append_eq_append_take, List.take_of_length_le (by omega),
            show ds.length + 1 + fs.length - ds.length = fs.length + 1 from by omega,
            List.take_succ_cons, List.take_left]
        have hfb := floatBody_digits_dot ds fs [] hds hfs (fun c t ht => nomatch ht)
        rw [List.append_nil] at hfb
        rw [htake, hfb, if_neg hE]
        exact h
  · rw [hbody, floatBody_digits_dash ds l hds] at h
    by_cases hE : ds.isEmpty = true
    · rw [if_pos hE] at h; cases h
    · rw [if_neg hE] at h
      refine ⟨ds.length, ?_, ?_, ?_, ?_⟩
      · rw [hbody]; simp [List.length_append]
      · rw [hbody, List.take_left, bodyLit_digits ds hds]
        simp [Bool.eq_false_iff.2 hE]
      · intro m hm1 hm2
        have htakem : body.take m = ds ++ '-' :: l.take (m - ds.length - 1) := by
          rw [hbody, List.take_append_eq_append_take, List.take_of_length_le (by omega),
            show m - ds.length = (m - ds.length - 1) + 1 from by omega,
            List.take_succ_cons]
          simp
        rw [htakem]
        exact bodyLit_digits_dash ds _ hds
      · rw [hbody, List.take_left, floatBody_digits ds hds, if_neg hE]
        exact h

/-- Prefixes of a list that does not start with a minus sign do not start
with a minus sign. -/
theorem head?_take_ne_dash {c : Char} (t : List Char) (n : ℕ) (hc : c ≠ '-') :
    ((c :: t).take n).head? ≠ some '-' := by
  cases n with
  | zero => simp
  | succ j => rw [List.take_succ_cons]; simp [hc]

/-- On cleaned character lists, parseFloat returns the value of the longest
prefix that is a signed decimal numeral, and 0 when there is none. -/
theorem parseFloatHead_getD_eq_specFloat (cs : List Char)
    (hcs : ∀ c ∈ cs, jsKeep c = true) :
    (parseFloatHead cs).getD 0 = specFloat cs := by
  cases cs with
  | nil => rfl
  | cons c t =>
    by_cases hc : c = '-'
    · subst hc
      have ht : ∀ c' ∈ t, jsKeep c' = true := fun c' h' => hcs c' (List.mem_cons_of_mem _ h')
      have hph : parseFloatHead ('-' :: t) = (floatBody t).map (fun v => -v) := rfl
      rcases hfb : floatBody t with _ | v
      · have hfind : ((List.range (('-' :: t).length + 1)).reverse.find?
            (fun n => isDecimalLit (('-' :: t).take n))) = none := by
          rw [List.find?_eq_none]
          intro n hn
          cases n with
          | zero => simp [isDecimalLit_nil]
          | succ j =>
            rw [List.take_succ_cons, isDecimalLit_dash]
            simp [bodyLit_take_false_of_none t ht hfb j]
        rw [hph, hfb, specFloat, longestNumericTake, hfind]
        rfl
      · obtain ⟨k, hk, hval, hmax, hvalue⟩ := floatBody_some_longest t ht hfb
        have hfind : ((List.range (('-' :: t).length + 1)).reverse.find?
            (fun n => isDecimalLit (('-' :: t).take n))) = some (k + 1) := by
          apply find_desc
          · simp only [List.length_cons]; omega
          · show isDecimalLit (('-' :: t).take (k + 1)) = true
            rw [List.take_succ_cons, isDecimalLit_dash]
            exact hval
          · intro m h1 h2
            cases m with
            | zero => omega
            | succ j =>
              show isDecimalLit (('-' :: t).take (j + 1)) = false
              rw [List.take_succ_cons, isDecimalLit_dash]
              exact hmax j (by omega) (by simpa using h2)
        have hspec : specFloat ('-' :: t)
            = (parseFloatHead (('-' :: t).take (k + 1))).getD 0 := by
          rw [specFloat, longestNumericTake, hfind]
          rfl
        rw [hph, hfb, hspec, List.take_succ_cons]
        have hph2 : parseFloatHead ('-' :: t.take k)
            = (floatBody (t.take k)).map (fun v => -v) := rfl
        rw [hph2, hvalue]
    · have hph : parseFloatHead (c :: t) = floatBody (c :: t) := by
        rw [parseFloatHead, if_neg (by simp [hc])]
      have hiso : ∀ n, isDecimalLit ((c :: t).take n) = bodyLit ((c :: t).take n) :=
        fun n => isDecimalLit_eq_bodyLit (head?_take_ne_dash t n hc)
      rcases hfb : floatBody (c :: t) with _ | v
      · have hfind : ((List.range ((c :: t).length + 1)).reverse.find?
            (fun n => isDecimalLit ((c :: t).take n))) = none := by
          rw [List.find?_eq_none]
          intro n hn
          simp [hiso n, bodyLit_take_false_of_none (c :: t) hcs hfb n]
        rw [hph, hfb, specFloat, longestNumericTake, hfind]
        rfl
      · obtain ⟨k, hk, hval, hmax, hvalue⟩ := floatBody_some_longest (c :: t) hcs hfb
        have hfind : ((List.range ((c :: t).length + 1)).reverse.find?
            (fun n => isDecimalLit ((c :: t).take n))) = some k := by
          apply find_desc
          · exact hk
          · show isDecimalLit ((c :: t).take k) = true
            rw [hiso k]
            exact hval
          · intro m h1 h2
            show isDecimalLit ((c :: t).take m) = false
            rw [hiso m]
            exact hmax m h1 h2
        have hspec : specFloat (c :: t)
            = (parseFloatHead ((c :: t).take k)).getD 0 := by
          rw [specFloat, longestNumericTake, hfind]
          rfl
        have hph2 : parseFloatHead ((c :: t).take k) = floatBody ((c :: t).take k) := by
          rw [parseFloatHead, if_neg (by simpa using head?_take_ne_dash t k hc)]
        rw [hph, hfb, hspec, hph2, hvalue]

/-- Claim C6 counterexample: on the input 5-3 the claim's algorithm strips the
non-leading minus sign and parses 53, but parseNumber keeps the interior minus
sign and parseFloat stops in front of it, returning 5. -/
theorem parseNumber_counterexample :
    parseNumber "5-3" = 5
    ∧ specParseAmount "5-3" = 53
    ∧ parseNumber "5-3" ≠ specParseAmount "5-3" := by
  have h1 : parseNumber "5-3" = 5 := by
    rw [parseNumber, show cleanChars "5-3" = ['5', '-', '3'] from by decide]
    simp [parseFloatHead, floatBody, floatVal, List.takeWhile, List.dropWhile, digitsToNat,
      digitVal]
  have h2 : specParseAmount "5-3" = 53 := by
    show (if isDecimalLit ['5', '3'] then (parseFloatHead ['5', '3']).getD 0 else 0) = 53
    rw [if_pos (by decide)]
    simp [parseFloatHead, floatBody, floatVal, List.takeWhile, List.dropWhile, digitsToNat,
      digitVal]
  exact ⟨h1, h2, by rw [h1, h2]; norm_num⟩

/-- Claim C6 amended: parseNumber strips every character that is not a digit,
decimal point or minus sign (minus signs are kept regardless of position),
returns the value of the longest prefix of the remainder that forms a signed
decimal numeral, and returns 0 whenever there is no such prefix (empty,
malformed or non-numeric input); it is a total function and never raises. -/
theorem parseNumber_spec (s : String) : parseNumber s = specParseAmountAmended s := by
  rw [parseNumber, specParseAmountAmended]
  exact parseFloatHead_getD_eq_specFloat (cleanChars s)
    (fun c hc => (List.mem_filter.1 hc).2)

/-- Facts about digit characters of digit values below ten. -/
theorem digitToChar_facts {d : ℕ} (hd : d < 10) :
    (digitToChar d).isDigit = true ∧ digitVal (digitToChar d) = d
      ∧ jsKeep (digitToChar d) = true ∧ digitToChar d ≠ '-' := by
  interval_cases d <;> exact ⟨rfl, rfl, rfl, by decide⟩

/-- The fueled digit expansion evaluates back to its number. -/
theorem natDigitsRev_foldr : ∀ f n : ℕ, n ≤ f →
    (natDigitsRev f n).foldr (fun d a => 10 * a + d) 0 = n := by
  intro f
  induction f with
  | zero =>
    intro n hn
    interval_cases n
    rfl
  | succ f ih =>
    intro n hn
    cases n with
    | zero => rfl
    | succ m =>
      have hdiv : (m + 1) / 10 ≤ f := by
        have := Nat.div_lt_self (Nat.succ_pos m) (by norm_num : 1 < 10)
        omega
      show ((m + 1) % 10 :: natDigitsRev f ((m + 1) / 10)).foldr _ 0 = m + 1
      rw [List.foldr_cons, ih ((m + 1) / 10) hdiv]
      omega

/-- The fueled digit expansion yields digits below ten. -/
theorem natDigitsRev_lt : ∀ f n : ℕ, ∀ d ∈ natDigitsRev f n, d < 10 := by
  intro f
  induction f with
  | zero => intro n d hd; cases hd
  | succ f ih =>
    intro n d hd
    cases n with
    | zero => cases hd
    | succ m =>
      rcases List.mem_cons.1 hd with rfl | hd'
      · omega
      · exact ih _ d hd'

/-- A congruence for the digit-valued fold over small digits. -/
theorem foldr_digitVal_eq : ∀ l : List ℕ, (∀ d ∈ l, d < 10) →
    l.foldr (fun d a => 10 * a + digitVal (digitToChar d)) 0
      = l.foldr (fun d a => 10 * a + d) 0 := by
  intro l
  induction l with
  | nil => intro _; rfl
  | cons d l ih =>
    intro h
    rw [List.foldr_cons, List.foldr_cons, ih (fun d' hd' => h d' (List.mem_cons_of_mem d hd')),
      (digitToChar_facts (h d (List.mem_cons_self d l))).2.1]

/-- The big-endian digit rendering of a natural number evaluates back to it,
consists of digit characters, and is non-empty. -/
theorem natToDigitChars_spec (n : ℕ) :
    digitsToNat (natToDigitChars n) = n
      ∧ (∀ c ∈ natToDigitChars n, c.isDigit = true)
      ∧ natToDigitChars n ≠ [] := by
  by_cases hn : n = 0
  · subst hn
    exact ⟨rfl, by
      intro c hc
      rw [show natToDigitChars 0 = ['0'] from rfl] at hc
      simp at hc
      subst hc
      rfl, by decide⟩
  · rw [natToDigitChars, if_neg hn]
    refine ⟨?_, ?_, ?_⟩
    · rw [digitsToNat, List.foldl_reverse, List.foldr_map]
      have h1 := foldr_digitVal_eq (natDigitsRev n n) (natDigitsRev_lt n n)
      have h2 := natDigitsRev_foldr n n (le_refl n)
      simpa [h1] using h2
    · intro c hc
      rw [List.mem_reverse, List.mem_map] at hc
      obtain ⟨d, hd, rfl⟩ := hc
      exact (digitToChar_facts (natDigitsRev_lt n n d hd)).1
    · cases hm : n with
      | zero => exact absurd hm hn
      | succ m =>
        show ((natDigitsRev (m + 1) (m + 1)).map digitToChar).reverse ≠ []
        rw [show natDigitsRev (m + 1) (m + 1)
            = ((m + 1) % 10) :: natDigitsRev m ((m + 1) / 10) from rfl]
        simp

/-- Joining the chunks of three recovers the original list. -/
theorem chunk3_flatten {α : Type} : ∀ l : List α, (chunk3 l).flatten = l
  | [] => rfl
  | [a] => rfl
  | [a, b] => rfl
  | a :: b :: c :: rest => by
    show ([a, b, c] :: chunk3 rest).flatten = a :: b :: c :: rest
    rw [List.flatten_cons, chunk3_flatten rest]
    rfl

/-- Flattening reversed reversed chunks reverses the flattening. -/
theorem flatten_map_reverse (L : List (List Char)) :
    ((L.map List.reverse).reverse).flatten = L.flatten.reverse := by
  induction L with
  | nil => rfl
  | cons l L ih => simp [List.flatten_append, ih]

/-- Filtering kept characters through the comma join drops exactly the
separators when every chunk character is kept. -/
theorem filter_commaJoin : ∀ L : List (List Char),
    (∀ l ∈ L, ∀ c ∈ l, jsKeep c = true) →
    (commaJoin L).filter jsKeep = L.flatten := by
  intro L
  induction L with
  | nil => intro _; rfl
  | cons l rest ih =>
    intro h
    cases rest with
    | nil =>
      show (commaJoin [l]).filter jsKeep = [l].flatten
      rw [show commaJoin [l] = l from rfl,
        List.filter_eq_self.2 (fun c hc => h l (List.mem_cons_self l []) c hc)]
      rw [List.flatten_cons, List.flatten_nil, List.append_nil]
    | cons l2 rest2 =>
      rw [show commaJoin (l :: l2 :: rest2) = l ++ ',' :: commaJoin (l2 :: rest2) from rfl,
        List.filter_append,
        List.filter_eq_self.2 (fun c hc => h l (List.mem_cons_self _ _) c hc),
        List.filter_cons_of_neg (by decide),
        ih (fun l2 hl2 c hc => h l2 (List.mem_cons_of_mem _ hl2) c hc)]
      rfl

/-- Cleaning a comma-grouped digit string recovers the digit string. -/
theorem filter_commaGroup (ds : List Char) (h : ∀ c ∈ ds, jsKeep c = true) :
    (commaGroup ds).filter jsKeep = ds := by
  rw [commaGroup, filter_commaJoin _ (by
    intro l hl c hc
    apply h
    rw [List.mem_reverse, List.mem_map] at hl
    obtain ⟨l', hl', rfl⟩ := hl
    rw [List.mem_reverse] at hc
    have hj : c ∈ (chunk3 ds.reverse).flatten := List.mem_flatten.2 ⟨l', hl', hc⟩
    rw [chunk3_flatten] at hj
    exact List.mem_reverse.1 hj),
    flatten_map_reverse, chunk3_flatten, List.reverse_reverse]

/-- A digit character is kept by the cleaning step. -/
theorem jsKeep_of_digit {c : Char} (h : c.isDigit = true) : jsKeep c = true := by
  rw [jsKeep, h]
  rfl

/-- The two-digit cent rendering evaluates back to the cent value. -/
theorem twoDigitChars_spec (f : ℕ) (hf : f < 100) :
    digitsToNat (twoDigitChars f) = f ∧ ∀ c ∈ twoDigitChars f, c.isDigit = true := by
  have h1 : f / 10 % 10 < 10 := Nat.mod_lt _ (by norm_num)
  have h2 : f % 10 < 10 := Nat.mod_lt _ (by norm_num)
  constructor
  · show (twoDigitChars f).foldl (fun a c => 10 * a + digitVal c) 0 = f
    rw [show twoDigitChars f = [digitToChar (f / 10 % 10), digitToChar (f % 10)] from rfl]
    rw [List.foldl_cons, List.foldl_cons, List.foldl_nil,
      (digitToChar_facts h1).2.1, (digitToChar_facts h2).2.1]
    omega
  · intro c hc
    rcases List.mem_cons.1 hc with rfl | hc'
    · exact (digitToChar_facts h1).1
    · rcases List.mem_cons.1 hc' with rfl | hc''
      · exact (digitToChar_facts h2).1
      · cases hc''

/-- A digit character is not a minus sign. -/
theorem ne_dash_of_digit {c : Char} (h : c.isDigit = true) : c ≠ '-' := by
  intro hc
  subst hc
  cases h

/-- Parsing the rendered cent integer recovers the cent value over 100. -/
theorem parseNumber_render (r : ℤ) :
    parseNumber (String.mk ((if r < 0 then ['-'] else [])
      ++ commaGroup (natToDigitChars (r.natAbs / 100))
      ++ '.' :: twoDigitChars (r.natAbs % 100))) = (r : ℚ) / 100 := by
  obtain ⟨hval, hdig, hne⟩ := natToDigitChars_spec (r.natAbs / 100)
  obtain ⟨hfval, hfdig⟩ := twoDigitChars_spec (r.natAbs % 100) (Nat.mod_lt _ (by norm_num))
  have hkds : ∀ c ∈ natToDigitChars (r.natAbs / 100), jsKeep c = true :=
    fun c hc => jsKeep_of_digit (hdig c hc)
  have hsplit : ((r.natAbs : ℕ) : ℚ)
      = 100 * ((r.natAbs / 100 : ℕ) : ℚ) + ((r.natAbs % 100 : ℕ) : ℚ) := by
    exact_mod_cast (Nat.div_add_mod r.natAbs 100).symm
  have hEds : (natToDigitChars (r.natAbs / 100)).isEmpty = false := by
    rw [Bool.eq_false_iff]
    intro hE
    exact hne (List.isEmpty_iff.1 hE)
  have hfb := floatBody_digits_dot (natToDigitChars (r.natAbs / 100))
    (twoDigitChars (r.natAbs % 100)) [] hdig hfdig (fun c t ht => nomatch ht)
  rw [List.append_nil] at hfb
  have hlen : (twoDigitChars (r.natAbs % 100)).length = 2 := rfl
  by_cases hneg : r < 0
  · rw [if_pos hneg]
    have habs : ((r.natAbs : ℕ) : ℚ) = -(r : ℚ) := by
      rw [Int.cast_natAbs]
      exact_mod_cast abs_of_neg hneg
    have hclean : cleanChars (String.mk (['-']
        ++ commaGroup (natToDigitChars (r.natAbs / 100))
        ++ '.' :: twoDigitChars (r.natAbs % 100)))
        = '-' :: (natToDigitChars (r.natAbs / 100) ++ '.' :: twoDigitChars (r.natAbs % 100)) := by
      show (['-'] ++ commaGroup (natToDigitChars (r.natAbs / 100))
        ++ '.' :: twoDigitChars (r.natAbs % 100)).filter jsKeep = _
      rw [List.append_assoc, List.singleton_append, List.filter_cons_of_pos (by decide),
        List.filter_append, filter_commaGroup _ hkds, List.filter_cons_of_pos (by decide),
        List.filter_eq_self.2 (fun c hc => jsKeep_of_digit (hfdig c hc))]
    rw [parseNumber, hclean,
      show parseFloatHead ('-' :: (natToDigitChars (r.natAbs / 100)
          ++ '.' :: twoDigitChars (r.natAbs % 100)))
        = (floatBody (natToDigitChars (r.natAbs / 100)
          ++ '.' :: twoDigitChars (r.natAbs % 100))).map (fun v => -v) from rfl,
      hfb, if_neg (by simp [hEds]), Option.map_some', Option.getD_some, floatVal, hval, hfval,
      hlen]
    rw [show ((10 : ℚ)) ^ (2 : ℕ) = 100 from by norm_num]
    field_simp
    linarith [hsplit, habs]
  · rw [if_neg hneg]
    have habs : ((r.natAbs : ℕ) : ℚ) = (r : ℚ) := by
      rw [Int.cast_natAbs]
      exact_mod_cast abs_of_nonneg (not_lt.1 hneg)
    have hclean : cleanChars (String.mk ([]
        ++ commaGroup (natToDigitChars (r.natAbs / 100))
        ++ '.' :: twoDigitChars (r.natAbs % 100)))
        = natToDigitChars (r.natAbs / 100) ++ '.' :: twoDigitChars (r.natAbs % 100) := by
      show (([] : List Char) ++ commaGroup (natToDigitChars (r.natAbs / 100))
        ++ '.' :: twoDigitChars (r.natAbs % 100)).filter jsKeep = _
      rw [List.nil_append, List.filter_append, filter_commaGroup _ hkds,
        List.filter_cons_of_pos (by decide),
        List.filter_eq_self.2 (fun c hc => jsKeep_of_digit (hfdig c hc))]
    have hhead : (natToDigitChars (r.natAbs / 100)
        ++ '.' :: twoDigitChars (r.natAbs % 100)).head? ≠ some '-' := by
      cases hds0 : natToDigitChars (r.natAbs / 100) with
      | nil => exact absurd hds0 hne
      | cons c0 t0 =>
        have hc0 : c0.isDigit = true := hdig c0 (by rw [hds0]; exact List.mem_cons_self c0 t0)
        simp [ne_dash_of_digit hc0]
    rw [parseNumber, hclean, parseFloatHead, if_neg (by simpa using hhead), hfb,
      if_neg (by simp [hEds]), Option.getD_some, floatVal, hval, hfval, hlen]
    rw [show ((10 : ℚ)) ^ (2 : ℕ) = 100 from by norm_num]
    field_simp
    linarith [hsplit, habs]

/-- Parsing a formatted value yields the rounded cents over 100. -/
theorem parseNumber_formatWithCommas (q : ℚ) :
    parseNumber (formatWithCommas q) = ((roundHalfExpand (100 * q) : ℤ) : ℚ) / 100 :=
  parseNumber_render (roundHalfExpand (100 * q))

/-- Rounding an integer changes nothing. -/
theorem roundHalfExpand_intCast (r : ℤ) : roundHalfExpand (r : ℚ) = r := by
  rw [roundHalfExpand]
  by_cases h : (0 : ℚ) ≤ (r : ℚ)
  · rw [if_pos h, add_comm, Int.floor_add_int]
    norm_num
  · rw [if_neg h, show -(r : ℚ) = ((-r : ℤ) : ℚ) from by push_cast; ring,
      add_comm, Int.floor_add_int]
    norm_num

/-- Formatting the rounded cents of a value reproduces its formatting. -/
theorem formatWithCommas_roundtrip (q : ℚ) :
    formatWithCommas (((roundHalfExpand (100 * q) : ℤ) : ℚ) / 100) = formatWithCommas q := by
  have harg : roundHalfExpand (100 * (((roundHalfExpand (100 * q) : ℤ) : ℚ) / 100))
      = roundHalfExpand (100 * q) := by
    rw [show (100 : ℚ) * (((roundHalfExpand (100 * q) : ℤ) : ℚ) / 100)
        = ((roundHalfExpand (100 * q) : ℤ) : ℚ) from by field_simp]
    exact roundHalfExpand_intCast _
  simp only [formatWithCommas]
  rw [harg]

/-- A formatted value never trims to the empty string: it contains a dot. -/
theorem jsTrimEmpty_format (q : ℚ) : jsTrimEmpty (formatWithCommas q) = false := by
  show ((if roundHalfExpand (100 * q) < 0 then ['-'] else [])
    ++ commaGroup (natToDigitChars ((roundHalfExpand (100 * q)).natAbs / 100))
    ++ '.' :: twoDigitChars ((roundHalfExpand (100 * q)).natAbs % 100)).all jsSpaceB = false
  apply Bool.eq_false_iff.2
  intro hall
  rw [List.all_eq_true] at hall
  have hmem : '.' ∈ ((if roundHalfExpand (100 * q) < 0 then ['-'] else [])
      ++ commaGroup (natToDigitChars ((roundHalfExpand (100 * q)).natAbs / 100))
      ++ '.' :: twoDigitChars ((roundHalfExpand (100 * q)).natAbs % 100)) := by
    rw [List.append_assoc]
    exact List.mem_append.2 (Or.inr (List.mem_append.2 (Or.inr
      (List.mem_cons_self _ _))))
  have := hall '.' hmem
  exact absurd this (by decide)

/-- Reformatting an already formatted input changes nothing. -/
theorem formatInputValue_idem (v : String) :
    formatInputValue (formatInputValue v) = formatInputValue v := by
  by_cases h : parseNumber v = 0 ∧ jsTrimEmpty v = true
  · have hv : formatInputValue v = "" := by rw [formatInputValue, if_pos h]
    rw [hv, formatInputValue, if_pos ⟨rfl, rfl⟩]
  · have hv : formatInputValue v = formatWithCommas (parseNumber v) := by
      rw [formatInputValue, if_neg h]
    rw [hv, formatInputValue,
      if_neg (fun hc => absurd hc.2 (by rw [jsTrimEmpty_format]; simp)),
      parseNumber_formatWithCommas]
    exact formatWithCommas_roundtrip (parseNumber v)

/-- Boolean list containment agrees with membership for strings. -/
theorem contains_iff_mem_str (l : List String) (a : String) :
    l.contains a = true ↔ a ∈ l := by
  rw [List.contains_iff_exists_mem_beq]
  constructor
  · rintro ⟨b, hb, hab⟩
    rwa [show a = b from by simpa using hab]
  · intro h
    exact ⟨a, h, by simp⟩

/-- Building the inputs object over fields with fresh ids appends one entry
per field in order. -/
theorem foldl_objInsert (fields : List FormField) :
    ∀ acc : List (String × InputVal),
      (∀ f ∈ fields, f.id ∉ acc.map Prod.fst) →
      (fields.map FormField.id).Nodup →
      fields.foldl (fun acc f => objInsert acc f.id (encInput f)) acc
        = acc ++ fields.map (fun f => (f.id, encInput f)) := by
  induction fields with
  | nil => intro acc _ _; simp
  | cons f fields ih =>
    intro acc hacc hnd
    have hnotin : f.id ∉ acc.map Prod.fst := hacc f (List.mem_cons_self f fields)
    have hstep : objInsert acc f.id (encInput f) = acc ++ [(f.id, encInput f)] := by
      rw [objInsert, if_neg (fun hc => hnotin ((contains_iff_mem_str _ _).1 hc))]
    rw [List.foldl_cons, hstep,
      ih (acc ++ [(f.id, encInput f)]) ?hacc2 (List.nodup_cons.1 (by simpa using hnd)).2]
    · simp
    case hacc2 =>
      intro g hg
      rw [List.map_append]
      intro hmem
      rcases List.mem_append.1 hmem with hmem1 | hmem2
      · exact hacc g (List.mem_cons_of_mem f hg) hmem1
      · have hgid : g.id = f.id := by simpa using hmem2
        have hfid : f.id ∉ fields.map FormField.id := (List.nodup_cons.1 (by simpa using hnd)).1
        exact hfid (hgid ▸ List.mem_map_of_mem FormField.id hg)

/-- Looking up a field's own id in the inputs object of fields with distinct
ids yields that field's entry. -/
theorem lookup_encInput (fields : List FormField) :
    (fields.map FormField.id).Nodup →
    ∀ f ∈ fields, (fields.map (fun g => (g.id, encInput g))).lookup f.id = some (encInput f) := by
  induction fields with
  | nil => intro _ f hf; cases hf
  | cons g fields ih =>
    intro hnd f hf
    rcases List.mem_cons.1 hf with rfl | hf'
    · simp [List.lookup]
    · have hne : f.id ≠ g.id := by
        intro hEq
        have hgid : g.id ∉ fields.map FormField.id := (List.nodup_cons.1 (by simpa using hnd)).1
        exact hgid (hEq ▸ List.mem_map_of_mem FormField.id hf')
      rw [List.map_cons, List.lookup,
        show (f.id == g.id) = false from beq_eq_false_iff_ne.2 hne]
      exact ih (List.nodup_cons.1 (by simpa using hnd)).2 f hf'

/-- Restoring a field from its own serialized entry leaves it unchanged. -/
theorem applyInputs_enc (inputs : List (String × InputVal)) (f : FormField)
    (h : inputs.lookup f.id = some (encInput f)) : applyInputs inputs f = f := by
  rw [applyInputs, h]
  show (if f.isCheckable = true then { f with checked := jsTruthy (encInput f) }
      else { f with value := jsToString (encInput f) }) = f
  cases hck : f.isCheckable
  · rw [if_neg (by simp), encInput, if_neg (by simp [hck]), ← hck]
    rfl
  · rw [if_pos rfl, encInput, if_pos hck, ← hck]
    rfl

/-- Restoring every field from the document serialized from the same form
leaves the fields unchanged, when ids are unique. -/
theorem applyInputs_saveState (st : FormState) (hnd : (st.fields.map FormField.id).Nodup)
    (f : FormField) (hf : f ∈ st.fields) :
    applyInputs (saveStateDoc st).inputs f = f := by
  have hinputs : (saveStateDoc st).inputs = st.fields.map (fun g => (g.id, encInput g)) := by
    show st.fields.foldl (fun acc g => objInsert acc g.id (encInput g)) [] = _
    rw [foldl_objInsert st.fields [] (fun g _ hmem => by cases hmem) hnd]
    rfl
  rw [hinputs]
  exact applyInputs_enc _ f (lookup_encInput st.fields hnd f hf)

/-- One custom container after serialize, rebuild and reformat. -/
theorem customRows_roundTrip (items : List CustomItem) :
    ((readCustomRows items).map addCustomItemRow).map
      (fun it => (⟨it.label, formatInputValue it.value⟩ : CustomItem))
    = items.map canonItem := by
  rw [readCustomRows, List.map_map, List.map_map]
  apply List.map_congr_left
  intro it _
  have hv1 : (if it.value = "" then "0" else it.value) ≠ "" := by
    by_cases h : it.value = "" <;> simp [h]
  show (⟨(addCustomItemRow ⟨it.label, if it.value = "" then "0" else it.value⟩).label,
      formatInputValue (addCustomItemRow
        ⟨it.label, if it.value = "" then "0" else it.value⟩).value⟩ : CustomItem)
    = canonItem it
  rw [addCustomItemRow, canonItem]
  show (⟨it.label, formatInputValue (formatInputValue
      (if (if it.value = "" then "0" else it.value) = ""
        then "0" else (if it.value = "" then "0" else it.value)))⟩ : CustomItem) = _
  rw [if_neg hv1, formatInputValue_idem]

/-- Claim C7 amended: restoring the serialized snapshot preserves the theme,
every checkable field, every non-formatted field text and every custom item
list with its length, order and labels exactly; the value of every
data-format field is replaced by its canonical reformatting, and the value
of every custom item likewise (with an empty stored value first falling back
to the string 0). -/
theorem roundTrip_spec (st : FormState) (hnd : (st.fields.map FormField.id).Nodup) :
    roundTrip st
      = { themeLight := st.themeLight
          fields := st.fields.map formatAllField
          custom := mapCustomLists (List.map canonItem) st.custom } := by
  rw [roundTrip, restoreDoc]
  have hfields : st.fields.map (applyInputs (saveStateDoc st).inputs) = st.fields := by
    have h1 : st.fields.map (applyInputs (saveStateDoc st).inputs) = st.fields.map id :=
      List.map_congr_left (fun f hf => applyInputs_saveState st hnd f hf)
    rw [h1, List.map_id]
  rw [hfields, FormState.mk.injEq]
  refine ⟨?_, rfl, ?_⟩
  · cases hth : st.themeLight
    · rw [show (saveStateDoc st).theme = if st.themeLight then "light" else "dark" from rfl,
        hth]
      rfl
    · rw [show (saveStateDoc st).theme = if st.themeLight then "light" else "dark" from rfl,
        hth]
      rfl
  · show mapCustomLists _ (mapCustomLists readCustomRows st.custom) = _
    rw [mapCustomLists, mapCustomLists, mapCustomLists, CustomLists.mk.injEq]
    exact ⟨customRows_roundTrip _, customRows_roundTrip _, customRows_roundTrip _,
      customRows_roundTrip _, customRows_roundTrip _, customRows_roundTrip _,
      customRows_roundTrip _⟩

/-- Claim C7 counterexample: restoring the serialized snapshot of a state
whose salary field holds the raw text 1000 yields the reformatted text
1,000.00, so the round trip does not reproduce the state exactly. -/
theorem roundTrip_counterexample :
    (roundTrip exState).fields = [⟨"annualSalary", false, true, "1,000.00", false⟩]
    ∧ roundTrip exState ≠ exState := by
  have hp : parseNumber "1000" = 1000 := by
    rw [parseNumber, show cleanChars "1000" = ['1', '0', '0', '0'] from by decide]
    simp [parseFloatHead, floatBody, floatVal, List.takeWhile, List.dropWhile, digitsToNat,
      digitVal]
  have hfmt : formatInputValue "1000" = "1,000.00" := by
    rw [formatInputValue, if_neg (fun hc => by rw [hp] at hc; exact absurd hc.1 (by norm_num)),
      hp]
    have hr : roundHalfExpand (100 * (1000 : ℚ)) = 100000 := by
      rw [show (100 : ℚ) * 1000 = ((100000 : ℤ) : ℚ) from by norm_num]
      exact roundHalfExpand_intCast 100000
    simp only [formatWithCommas]
    rw [hr]
    decide
  have hsave : saveStateDoc exState
      = ⟨"dark", [("annualSalary", InputVal.s "1000")], ⟨[], [], [], [], [], [], []⟩⟩ := by
    rfl
  have hRT : roundTrip exState
      = { themeLight := false
          fields := [⟨"annualSalary", false, true, "1,000.00", false⟩]
          custom := ⟨[], [], [], [], [], [], []⟩ } := by
    rw [roundTrip, hsave, restoreDoc, FormState.mk.injEq]
    refine ⟨by decide, ?_, by decide⟩
    have ha : applyInputs [("annualSalary", InputVal.s "1000")]
        ⟨"annualSalary", false, true, "1000", false⟩
        = ⟨"annualSalary", false, true, "1000", false⟩ := rfl
    show ([(⟨"annualSalary", false, true, "1000", false⟩ : FormField)].map
        (applyInputs [("annualSalary", InputVal.s "1000")])).map formatAllField = _
    rw [List.map_cons, List.map_nil, ha, List.map_cons, List.map_nil,
      show formatAllField ⟨"annualSalary", false, true, "1000", false⟩
        = ⟨"annualSalary", false, true, formatInputValue "1000", false⟩ from rfl, hfmt]
  refine ⟨by rw [hRT], ?_⟩
  rw [hRT]
  intro h
  exact absurd (congrArg FormState.fields h) (by decide)

/-- Witness for claim C7 amended at the example state. -/
theorem roundTrip_spec_witness :
    roundTrip exState
      = { themeLight := exState.themeLight
          fields := exState.fields.map formatAllField
          custom := mapCustomLists (List.map canonItem) exState.custom } :=
  roundTrip_spec exState (by decide)

/-- Claim C8 counterexample: when the localStorage write throws, saveState
performs no cookie write, while the claimed independent behaviour still
writes the cookie copy. -/
theorem saveState_not_independent :
    saveStateWrites exState true = []
    ∧ specSaveWrites exState true
        = [.cookie COOKIE_KEY ((btoa (jsonStringify (saveStateDoc exState))).getD "") 34128000]
    ∧ saveStateWrites exState true ≠ specSaveWrites exState true := by
  refine ⟨rfl, rfl, ?_⟩
  intro h
  rw [show saveStateWrites exState true = [] from rfl,
    show specSaveWrites exState true
      = [.cookie COOKIE_KEY ((btoa (jsonStringify (saveStateDoc exState))).getD "") 34128000]
      from rfl]
    at h
  exact List.noConfusion h

/-- Claim C8 amended: when the localStorage write succeeds and the serialized
document is Latin-1, saveState writes it under the fixed key payrollCalcState
and a base64 copy under the cookie name payrollCalcCookie with a max-age of
34128000 seconds, which is exactly 395 days; when the localStorage write
throws, the cookie write is not reached and no write completes; when the
serialized document holds a character above U+00FF, btoa throws after the
store write, so only the store write completes — and btoa throws exactly on
such documents. -/
theorem saveState_writes (st : FormState) :
    saveStateWrites st true = []
    ∧ (∀ enc, btoa (jsonStringify (saveStateDoc st)) = some enc →
        saveStateWrites st false
          = [.store "payrollCalcState" (jsonStringify (saveStateDoc st)),
             .cookie "payrollCalcCookie" enc 34128000])
    ∧ (btoa (jsonStringify (saveStateDoc st)) = none →
        saveStateWrites st false
          = [.store "payrollCalcState" (jsonStringify (saveStateDoc st))])
    ∧ (btoa (jsonStringify (saveStateDoc st)) = none
        ↔ (jsonStringify (saveStateDoc st)).data.all
            (fun c => decide (c.toNat < 256)) = false)
    ∧ 34128000 = 395 * 24 * 60 * 60 := by
  refine ⟨rfl, ?_, ?_, ?_, rfl⟩
  · intro enc h
    rw [saveStateWrites, if_neg (by simp), h]
    rfl
  · intro h
    rw [saveStateWrites, if_neg (by simp), h]
    rfl
  · rw [btoa]
    cases hall : (jsonStringify (saveStateDoc st)).data.all
        (fun c => decide (c.toNat < 256)) with
    | true => simp [hall]
    | false => simp [hall]

/-- Witness for claim C8 amended: at the Latin-1 example state both writes
complete, and at the state holding a euro sign only the store write does. -/
theorem saveState_writes_witness :
    saveStateWrites exState false
      = [.store "payrollCalcState" (jsonStringify (saveStateDoc exState)),
         .cookie "payrollCalcCookie"
           ((btoa (jsonStringify (saveStateDoc exState))).getD "") 34128000]
    ∧ saveStateWrites exStateUni false
      = [.store "payrollCalcState" (jsonStringify (saveStateDoc exStateUni))] :=
  ⟨(saveState_writes exState).2.1
      ((btoa (jsonStringify (saveStateDoc exState))).getD "") rfl,
   (saveState_writes exStateUni).2.2.1 rfl⟩

/-- C9: when the primary store is absent, empty or holds a string that does
not parse as JSON, and every matching cookie row either fails base64
decoding or decodes to a string that does not parse as JSON, loadState
acquires no data and leaves the default state; the embedding is a total
function, so no exception escapes. -/
theorem loadState_defaults (stored : Option String) (cookieStr : String)
    (h1 : ∀ s, stored = some s → jsonParse s = none)
    (h2 : ∀ row, (splitOnList [';', ' '] cookieStr.data).find?
        (fun row => cookieHead.isPrefixOf row) = some row →
      ∀ d, atob (String.mk ((splitOnList ['='] row).getD 1 [])) = some d →
        jsonParse d = none) :
    loadStateData stored cookieStr = none := by
  have hcb : cookieFallback cookieStr = none := by
    rw [cookieFallback]
    cases hfind : (splitOnList [';', ' '] cookieStr.data).find?
        (fun row => cookieHead.isPrefixOf row) with
    | none => rfl
    | some row =>
      show (match atob (String.mk ((splitOnList ['='] row).getD 1 [])) with
        | none => none
        | some decoded => truthyParse decoded) = none
      cases hatob : atob (String.mk ((splitOnList ['='] row).getD 1 [])) with
      | none => rfl
      | some d =>
        show truthyParse d = none
        rw [truthyParse, h2 row hfind d hatob]
  cases stored with
  | none => exact hcb
  | some s =>
    by_cases hs : s = ""
    · subst hs
      exact hcb
    · have ht : truthyParse s = none := by rw [truthyParse, h1 s rfl]
      show (match (if s = "" then none else truthyParse s : Option Json) with
        | some j => some j
        | none => cookieFallback cookieStr) = none
      rw [if_neg hs, ht]
      exact hcb

/-- Witness for C9: primary store holds `not json`, cookie holds
`payrollCalcCookie=%%%` (invalid base64); loadState yields no data. -/
theorem loadState_defaults_witness :
    loadStateData (some "not json") "payrollCalcCookie=%%%" = none := by
  apply loadState_defaults
  · intro s hs
    injection hs with hs
    subst hs
    rfl
  · intro row hrow d hd
    have h3 : (splitOnList [';', ' '] ("payrollCalcCookie=%%%" : String).data).find?
        (fun row => cookieHead.isPrefixOf row) =
        some ("payrollCalcCookie=%%%" : String).data := rfl
    rw [h3] at hrow
    injection hrow with hrow
    subst hrow
    have h4 : atob (String.mk
        ((splitOnList ['='] ("payrollCalcCookie=%%%" : String).data).getD 1 [])) =
        none := rfl
    rw [h4] at hd
    exact Option.noConfusion hd
